import Mathlib

/-!
Verification development for the volumetric scalar-field analysis functions of
dxtools.py (meshgrid construction, slice extraction, radial and cylindrical
averaging, tabular serialization with pivot, and the mirror transform).

Scalars are modelled as rationals. NumPy float comparisons against a radius
r = sqrt(q) are expressed on squared quantities, which is exact for the
comparisons the code performs. Fallible NumPy operations (out-of-bounds
indexing, incompatible shapes, multiplying a grid by a string) are modelled
with Option, returning none where the Python code raises.
-/

/-- Matrix of rationals, row major, mirroring a 2D NumPy array. -/
abbrev Mat : Type := List (List ℚ)

/-- Shape predicate for a 2D matrix: m rows, each of length n. -/
def HasShape2 (M : List (List α)) (m n : ℕ) : Prop :=
  M.length = m ∧ ∀ row ∈ M, row.length = n

/-- Shape predicate for a 3D nested list: outer length a, then b, then c. -/
def HasShape3 (A : List (List (List ℚ))) (a b c : ℕ) : Prop :=
  A.length = a ∧ ∀ p ∈ A, p.length = b ∧ ∀ r ∈ p, r.length = c

instance (M : Mat) (m n : ℕ) : Decidable (HasShape2 M m n) := by
  unfold HasShape2; infer_instance

/-- Element access for a 3D nested list: index j on the outer axis, then i,
then k; none when out of bounds (a NumPy IndexError). -/
def get3? (A : List (List (List ℚ))) (j i k : ℕ) : Option ℚ :=
  (A[j]?.bind (fun p => p[i]?)).bind (fun r => r[k]?)

/-- Element access for a 2D matrix. -/
def get2? (M : List (List α)) (j i : ℕ) : Option α :=
  M[j]?.bind (fun r => r[i]?)

theorem getElem?_map_of_lt {α β : Type} (l : List α) (f : α → β) {i : ℕ}
    (hi : i < l.length) : (l.map f)[i]? = some (f (l.get ⟨i, hi⟩)) := by
  rw [List.getElem?_map, List.getElem?_eq_getElem hi]
  rfl

/-- The VolumeGrid collaborator: a 3D scalar array of shape (s0, s1, s2)
with per-axis spacing (d0, d1, d2) and origin (o0, o1, o2); entry access is
grid i j k for i below s0, j below s1, k below s2 (gridData.Grid). -/
structure VolumeGrid where
  s0 : ℕ
  s1 : ℕ
  s2 : ℕ
  grid : ℕ → ℕ → ℕ → ℚ
  d0 : ℚ
  d1 : ℚ
  d2 : ℚ
  o0 : ℚ
  o1 : ℚ
  o2 : ℚ

/-- Per-axis coordinate vector of create_meshgrid, from the line
xv = range(0,shape[a])*delta[a]+origin[a]+delta[a]. -/
def axisCoords (n : ℕ) (d o : ℚ) : List ℚ :=
  (List.range n).map (fun i : ℕ => (i : ℚ) * d + o + d)

/-- Coordinate of index i along axis 0 in the meshgrid of g. -/
def xcoord (g : VolumeGrid) (i : ℕ) : ℚ := (i : ℚ) * g.d0 + g.o0 + g.d0

/-- Coordinate of index j along axis 1 in the meshgrid of g. -/
def ycoord (g : VolumeGrid) (j : ℕ) : ℚ := (j : ℚ) * g.d1 + g.o1 + g.d1

/-- Coordinate of index k along axis 2 in the meshgrid of g. -/
def zcoord (g : VolumeGrid) (k : ℕ) : ℚ := (k : ℚ) * g.d2 + g.o2 + g.d2

/-- np.meshgrid(xv, yv, zv) with the default indexing: three arrays of shape
(yv.length, xv.length, zv.length); the first broadcasts xv along axis 1, the
second broadcasts yv along axis 0, the third broadcasts zv along axis 2. -/
def meshgrid3 (xv yv zv : List ℚ) :
    List (List (List ℚ)) × List (List (List ℚ)) × List (List (List ℚ)) :=
  ( yv.map (fun _ => xv.map (fun x => zv.map (fun _ => x))),
    yv.map (fun y => xv.map (fun _ => zv.map (fun _ => y))),
    yv.map (fun _ => xv.map (fun _ => zv)) )

/-- create_meshgrid from dxtools.py: per-axis coordinate vectors with the
plus-one offset, combined by np.meshgrid. -/
def create_meshgrid (g : VolumeGrid) :
    List (List (List ℚ)) × List (List (List ℚ)) × List (List (List ℚ)) :=
  meshgrid3 (axisCoords g.s0 g.d0 g.o0) (axisCoords g.s1 g.d1 g.o1)
    (axisCoords g.s2 g.d2 g.o2)

theorem axisCoords_length (n : ℕ) (d o : ℚ) : (axisCoords n d o).length = n := by
  rw [axisCoords, List.length_map, List.length_range]

theorem axisCoords_getElem? (n : ℕ) (d o : ℚ) {i : ℕ} (hi : i < n) :
    (axisCoords n d o)[i]? = some ((i : ℚ) * d + o + d) := by
  rw [axisCoords, getElem?_map_of_lt _ _ (by simpa using hi)]
  congr 2
  simp

theorem get3?_meshgrid3_fst (xv yv zv : List ℚ) (j i k : ℕ)
    (hj : j < yv.length) (hk : k < zv.length) :
    get3? (meshgrid3 xv yv zv).1 j i k = xv[i]? := by
  unfold get3? meshgrid3
  rw [getElem?_map_of_lt _ _ hj, Option.some_bind, List.getElem?_map]
  cases h : xv[i]? with
  | none => rfl
  | some x =>
    rw [Option.map_some', Option.some_bind, getElem?_map_of_lt _ _ hk]

theorem get3?_meshgrid3_snd (xv yv zv : List ℚ) (j i k : ℕ)
    (hi : i < xv.length) (hk : k < zv.length) :
    get3? (meshgrid3 xv yv zv).2.1 j i k = yv[j]? := by
  unfold get3? meshgrid3
  rw [List.getElem?_map]
  cases h : yv[j]? with
  | none => rfl
  | some y =>
    rw [Option.map_some', Option.some_bind, getElem?_map_of_lt _ _ hi,
      Option.some_bind, getElem?_map_of_lt _ _ hk]

theorem get3?_meshgrid3_trd (xv yv zv : List ℚ) (j i k : ℕ)
    (hj : j < yv.length) (hi : i < xv.length) :
    get3? (meshgrid3 xv yv zv).2.2 j i k = zv[k]? := by
  unfold get3? meshgrid3
  rw [getElem?_map_of_lt _ _ hj, Option.some_bind, getElem?_map_of_lt _ _ hi,
    Option.some_bind]

theorem shape3_meshgrid3_of (xv yv zv : List ℚ)
    (A : List (List (List ℚ)))
    (hA : A = (meshgrid3 xv yv zv).1 ∨ A = (meshgrid3 xv yv zv).2.1 ∨
      A = (meshgrid3 xv yv zv).2.2) :
    HasShape3 A yv.length xv.length zv.length := by
  rcases hA with rfl | rfl | rfl <;>
  · refine ⟨by simp [meshgrid3], ?_⟩
    intro p hp
    simp only [meshgrid3, List.mem_map] at hp
    obtain ⟨y, _, rfl⟩ := hp
    refine ⟨by simp, ?_⟩
    intro r hr
    simp only [List.mem_map] at hr
    obtain ⟨x, _, rfl⟩ := hr
    simp

/-- A concrete 3x3x3 grid with unit spacing, zero origin and value i+j+k. -/
def gW : VolumeGrid :=
  { s0 := 3, s1 := 3, s2 := 3,
    grid := fun i j k => (i : ℚ) + j + k,
    d0 := 1, d1 := 1, d2 := 1, o0 := 0, o1 := 0, o2 := 0 }

/-- C1: for every VolumeGrid with shape (s0, s1, s2), the three meshgrid
arrays X, Y, Z each have shape (s1, s0, s2), and the coordinate along axis a
at source index i is origin[a] + delta[a] * (i + 1) exactly. -/
theorem coordinate_construction_shape_and_values (g : VolumeGrid)
    (j i k : ℕ) (hj : j < g.s1) (hi : i < g.s0) (hk : k < g.s2) :
    HasShape3 (create_meshgrid g).1 g.s1 g.s0 g.s2 ∧
    HasShape3 (create_meshgrid g).2.1 g.s1 g.s0 g.s2 ∧
    HasShape3 (create_meshgrid g).2.2 g.s1 g.s0 g.s2 ∧
    get3? (create_meshgrid g).1 j i k = some (g.o0 + g.d0 * (i + 1)) ∧
    get3? (create_meshgrid g).2.1 j i k = some (g.o1 + g.d1 * (j + 1)) ∧
    get3? (create_meshgrid g).2.2 j i k = some (g.o2 + g.d2 * (k + 1)) := by
  have hx := axisCoords_length g.s0 g.d0 g.o0
  have hy := axisCoords_length g.s1 g.d1 g.o1
  have hz := axisCoords_length g.s2 g.d2 g.o2
  have hj' : j < (axisCoords g.s1 g.d1 g.o1).length := by rw [hy]; exact hj
  have hi' : i < (axisCoords g.s0 g.d0 g.o0).length := by rw [hx]; exact hi
  have hk' : k < (axisCoords g.s2 g.d2 g.o2).length := by rw [hz]; exact hk
  refine ⟨?_, ?_, ?_, ?_, ?_, ?_⟩
  · have := shape3_meshgrid3_of (axisCoords g.s0 g.d0 g.o0)
      (axisCoords g.s1 g.d1 g.o1) (axisCoords g.s2 g.d2 g.o2) _ (Or.inl rfl)
    rwa [hx, hy, hz] at this
  · have := shape3_meshgrid3_of (axisCoords g.s0 g.d0 g.o0)
      (axisCoords g.s1 g.d1 g.o1) (axisCoords g.s2 g.d2 g.o2) _
      (Or.inr (Or.inl rfl))
    rwa [hx, hy, hz] at this
  · have := shape3_meshgrid3_of (axisCoords g.s0 g.d0 g.o0)
      (axisCoords g.s1 g.d1 g.o1) (axisCoords g.s2 g.d2 g.o2) _
      (Or.inr (Or.inr rfl))
    rwa [hx, hy, hz] at this
  · rw [create_meshgrid, get3?_meshgrid3_fst _ _ _ _ _ _ hj' hk',
      axisCoords_getElem? _ _ _ hi]
    congr 1
    ring
  · rw [create_meshgrid, get3?_meshgrid3_snd _ _ _ _ _ _ hi' hk',
      axisCoords_getElem? _ _ _ hj]
    congr 1
    ring
  · rw [create_meshgrid, get3?_meshgrid3_trd _ _ _ _ _ _ hj' hi',
      axisCoords_getElem? _ _ _ hk]
    congr 1
    ring

/-- Witness for C1 at the concrete grid gW and indices (0, 1, 2). -/
theorem coordinate_construction_witness :
    get3? (create_meshgrid gW).1 0 1 2 = some (0 + 1 * (1 + 1)) :=
  (coordinate_construction_shape_and_values gW 0 1 2 (by decide) (by decide)
    (by decide)).2.2.2.1

/-- Subtract a scalar from every entry of a matrix (NumPy array minus scalar). -/
def matSub (M : Mat) (c : ℚ) : Mat := M.map (fun r => r.map (fun q => q - c))

/-- Raw grid values at a fixed axis-0 index: dxgrid.grid[a,:,:]. -/
def gridSlice0 (g : VolumeGrid) (a : ℕ) : Mat :=
  (List.range g.s1).map (fun j => (List.range g.s2).map (fun k => g.grid a j k))

/-- Raw grid values at a fixed axis-1 index: dxgrid.grid[:,a,:]. -/
def gridSlice1 (g : VolumeGrid) (a : ℕ) : Mat :=
  (List.range g.s0).map (fun i => (List.range g.s2).map (fun k => g.grid i a k))

/-- Raw grid values at a fixed axis-2 index: dxgrid.grid[:,:,a]. -/
def gridSlice2 (g : VolumeGrid) (a : ℕ) : Mat :=
  (List.range g.s0).map (fun i => (List.range g.s1).map (fun j => g.grid i j a))

/-- Extract slice from a DX grid, following _extract_slice: the slice index
defaults to int(shape[axis]/2) for the collapsed axis of the named plane, the
coordinate matrices are cut from the meshgrid arrays (whose first two axes are
transposed relative to the raw grid) and corrected by subtracting delta, and
the value matrix is the raw grid at that index.  Out-of-bounds indexing and
unrecognized plane names give none (IndexError / ValueError). -/
def extract_slice (g : VolumeGrid) (plane : String) (at? : Option ℕ) :
    Option (Mat × Mat × Mat) :=
  match plane with
  | "yz" =>
    let a := at?.getD (g.s0 / 2)
    ((create_meshgrid g).1[a]?).bind (fun Xa =>
      ((create_meshgrid g).2.2[a]?).bind (fun Za =>
        if a < g.s0 then
          some (matSub Xa g.d0, matSub Za g.d2, gridSlice0 g a)
        else none))
  | "xz" =>
    let a := at?.getD (g.s1 / 2)
    if a < g.s0 ∧ a < g.s1 then
      some (matSub ((create_meshgrid g).2.1.map (fun row => row.getD a []))
              g.d1,
            matSub ((create_meshgrid g).2.2.map (fun row => row.getD a []))
              g.d2,
            gridSlice1 g a)
    else none
  | "xy" =>
    let a := at?.getD (g.s2 / 2)
    if a < g.s2 then
      some (matSub ((create_meshgrid g).1.map
              (fun row => row.map (fun col => col.getD a 0))) g.d0,
            matSub ((create_meshgrid g).2.1.map
              (fun row => row.map (fun col => col.getD a 0))) g.d1,
            gridSlice2 g a)
    else none
  | _ => none

/-- Coordinate matrix whose entries vary with the row (outer) index. -/
def coordMatA (n m : ℕ) (o d : ℚ) : Mat :=
  (List.range n).map (fun i : ℕ => (List.range m).map (fun _ => o + d * i))

/-- Coordinate matrix whose entries vary with the column (inner) index. -/
def coordMatB (n m : ℕ) (o d : ℚ) : Mat :=
  (List.range n).map (fun _ => (List.range m).map (fun k : ℕ => o + d * k))

theorem matSub_axis_outer (n m : ℕ) (d o : ℚ) (zv : List ℚ) (hz : zv.length = m) :
    matSub ((axisCoords n d o).map (fun x => zv.map (fun _ => x))) d =
      coordMatA n m o d := by
  unfold matSub axisCoords coordMatA
  rw [List.map_map, List.map_map]
  apply List.map_congr_left
  intro i _
  simp only [Function.comp_apply, List.map_map, Function.comp_def]
  rw [List.map_const', List.map_const', hz, List.length_range]
  congr 1
  ring

theorem matSub_axis_inner (n m : ℕ) (d o : ℚ) (wv : List ℚ) (hw : wv.length = n) :
    matSub (wv.map (fun _ => axisCoords m d o)) d = coordMatB n m o d := by
  unfold matSub axisCoords coordMatB
  rw [List.map_map]
  have hinner : (axisCoords m d o).map (fun q => q - d) =
      (List.range m).map (fun k : ℕ => o + d * k) := by
    unfold axisCoords
    rw [List.map_map]
    apply List.map_congr_left
    intro k _
    simp only [Function.comp_apply]
    ring
  calc wv.map ((fun r => r.map (fun q => q - d)) ∘ (fun _ => axisCoords m d o))
      = wv.map (fun _ => (List.range m).map (fun k : ℕ => o + d * k)) := by
        apply List.map_congr_left
        intro w _
        simp only [Function.comp_apply]
        exact (by rw [axisCoords] at hinner ⊢; exact hinner)
    _ = (List.range n).map (fun _ => (List.range m).map (fun k : ℕ => o + d * k)) := by
        rw [List.map_const', List.map_const', hw, List.length_range]

theorem getD_map_const {α β : Type} (l : List α) (c dflt : β) {a : ℕ}
    (ha : a < l.length) : (l.map (fun _ => c)).getD a dflt = c := by
  rw [List.getD_eq_getElem?_getD, List.getElem?_map, List.getElem?_eq_getElem ha]
  rfl

theorem getD_map_apply {α β : Type} (l : List α) (f : α → β) (dflt : β) {a : ℕ}
    (ha : a < l.length) : (l.map f).getD a dflt = f (l.get ⟨a, ha⟩) := by
  rw [List.getD_eq_getElem?_getD, List.getElem?_map, List.getElem?_eq_getElem ha]
  rfl

/-- Computation of extract_slice at the default center index for the three
recognized planes: the value matrix is the raw grid at index shape[axis]/2 of
the collapsed axis, while the first coordinate matrix carries, for the planes
yz and xz, the coordinates of the collapsed axis itself (axes 0 and 1
respectively) because the meshgrid arrays have their first two axes
transposed relative to the raw grid. -/
theorem extract_slice_none_eq (g : VolumeGrid)
    (h0 : 0 < g.s0) (h1 : 0 < g.s1) (h2 : 0 < g.s2)
    (h01 : g.s0 / 2 < g.s1) (h10 : g.s1 / 2 < g.s0) :
    extract_slice g "yz" none =
      some (coordMatA g.s0 g.s2 g.o0 g.d0, coordMatB g.s0 g.s2 g.o2 g.d2,
        gridSlice0 g (g.s0 / 2)) ∧
    extract_slice g "xz" none =
      some (coordMatA g.s1 g.s2 g.o1 g.d1, coordMatB g.s1 g.s2 g.o2 g.d2,
        gridSlice1 g (g.s1 / 2)) ∧
    extract_slice g "xy" none =
      some (coordMatB g.s1 g.s0 g.o0 g.d0, coordMatA g.s1 g.s0 g.o1 g.d1,
        gridSlice2 g (g.s2 / 2)) := by
  have ha0 : g.s0 / 2 < g.s0 := Nat.div_lt_self h0 (by norm_num)
  have ha1 : g.s1 / 2 < g.s1 := Nat.div_lt_self h1 (by norm_num)
  have ha2 : g.s2 / 2 < g.s2 := Nat.div_lt_self h2 (by norm_num)
  have hlx := axisCoords_length g.s0 g.d0 g.o0
  have hly := axisCoords_length g.s1 g.d1 g.o1
  have hlz := axisCoords_length g.s2 g.d2 g.o2
  refine ⟨?_, ?_, ?_⟩
  · simp only [extract_slice, create_meshgrid, meshgrid3, Option.getD_none]
    rw [getElem?_map_of_lt _ _ (by rw [hly]; exact h01),
      getElem?_map_of_lt _ _ (by rw [hly]; exact h01)]
    simp only [Option.some_bind]
    rw [if_pos ha0,
      matSub_axis_outer g.s0 g.s2 g.d0 g.o0 _ hlz,
      matSub_axis_inner g.s0 g.s2 g.d2 g.o2 _ hlx]
  · simp only [extract_slice, create_meshgrid, meshgrid3, Option.getD_none]
    rw [if_pos ⟨h10, ha1⟩]
    have hY : List.map (fun row => row.getD (g.s1 / 2) ([] : List ℚ))
        ((axisCoords g.s1 g.d1 g.o1).map
          (fun y => (axisCoords g.s0 g.d0 g.o0).map
            (fun _ => (axisCoords g.s2 g.d2 g.o2).map (fun _ => y)))) =
        (axisCoords g.s1 g.d1 g.o1).map
          (fun y => (axisCoords g.s2 g.d2 g.o2).map (fun _ => y)) := by
      rw [List.map_map]
      apply List.map_congr_left
      intro y _
      simp only [Function.comp_apply]
      exact getD_map_const _ _ _ (by rw [hlx]; exact h10)
    have hZ : List.map (fun row => row.getD (g.s1 / 2) ([] : List ℚ))
        ((axisCoords g.s1 g.d1 g.o1).map
          (fun _ => (axisCoords g.s0 g.d0 g.o0).map
            (fun _ => axisCoords g.s2 g.d2 g.o2))) =
        (axisCoords g.s1 g.d1 g.o1).map
          (fun _ => axisCoords g.s2 g.d2 g.o2) := by
      rw [List.map_map]
      apply List.map_congr_left
      intro y _
      simp only [Function.comp_apply]
      exact getD_map_const _ _ _ (by rw [hlx]; exact h10)
    rw [hY, hZ,
      matSub_axis_outer g.s1 g.s2 g.d1 g.o1 _ hlz,
      matSub_axis_inner g.s1 g.s2 g.d2 g.o2 _ hly]
  · simp only [extract_slice, create_meshgrid, meshgrid3, Option.getD_none]
    rw [if_pos ha2]
    have hX : List.map
        (fun row => row.map (fun col => col.getD (g.s2 / 2) (0 : ℚ)))
        ((axisCoords g.s1 g.d1 g.o1).map
          (fun _ => (axisCoords g.s0 g.d0 g.o0).map
            (fun x => (axisCoords g.s2 g.d2 g.o2).map (fun _ => x)))) =
        (axisCoords g.s1 g.d1 g.o1).map
          (fun _ => axisCoords g.s0 g.d0 g.o0) := by
      rw [List.map_map]
      apply List.map_congr_left
      intro y _
      simp only [Function.comp_apply, List.map_map]
      have : ∀ x ∈ axisCoords g.s0 g.d0 g.o0,
          ((fun col => col.getD (g.s2 / 2) (0 : ℚ)) ∘
            (fun x => (axisCoords g.s2 g.d2 g.o2).map (fun _ => x))) x = x := by
        intro x _
        simp only [Function.comp_apply]
        exact getD_map_const _ _ _ (by rw [hlz]; exact ha2)
      rw [List.map_congr_left this, List.map_id']
    have hYxy : List.map
        (fun row => row.map (fun col => col.getD (g.s2 / 2) (0 : ℚ)))
        ((axisCoords g.s1 g.d1 g.o1).map
          (fun y => (axisCoords g.s0 g.d0 g.o0).map
            (fun _ => (axisCoords g.s2 g.d2 g.o2).map (fun _ => y)))) =
        (axisCoords g.s1 g.d1 g.o1).map
          (fun y => (axisCoords g.s0 g.d0 g.o0).map (fun _ => y)) := by
      rw [List.map_map]
      apply List.map_congr_left
      intro y _
      simp only [Function.comp_apply, List.map_map]
      apply List.map_congr_left
      intro x _
      simp only [Function.comp_apply]
      exact getD_map_const _ _ _ (by rw [hlz]; exact ha2)
    rw [hX, hYxy,
      matSub_axis_inner g.s1 g.s0 g.d0 g.o0 _ hly,
      matSub_axis_outer g.s1 g.s0 g.d1 g.o1 _ hlx]

theorem coordMatA_shape (n m : ℕ) (o d : ℚ) : HasShape2 (coordMatA n m o d) n m := by
  refine ⟨by simp [coordMatA], ?_⟩
  intro row hr
  simp only [coordMatA, List.mem_map] at hr
  obtain ⟨i, _, rfl⟩ := hr
  simp

theorem coordMatB_shape (n m : ℕ) (o d : ℚ) : HasShape2 (coordMatB n m o d) n m := by
  refine ⟨by simp [coordMatB], ?_⟩
  intro row hr
  simp only [coordMatB, List.mem_map] at hr
  obtain ⟨i, _, rfl⟩ := hr
  simp

theorem gridSlice0_shape (g : VolumeGrid) (a : ℕ) :
    HasShape2 (gridSlice0 g a) g.s1 g.s2 := by
  refine ⟨by simp [gridSlice0], ?_⟩
  intro row hr
  simp only [gridSlice0, List.mem_map] at hr
  obtain ⟨j, _, rfl⟩ := hr
  simp

theorem gridSlice1_shape (g : VolumeGrid) (a : ℕ) :
    HasShape2 (gridSlice1 g a) g.s0 g.s2 := by
  refine ⟨by simp [gridSlice1], ?_⟩
  intro row hr
  simp only [gridSlice1, List.mem_map] at hr
  obtain ⟨j, _, rfl⟩ := hr
  simp

theorem gridSlice2_shape (g : VolumeGrid) (a : ℕ) :
    HasShape2 (gridSlice2 g a) g.s0 g.s1 := by
  refine ⟨by simp [gridSlice2], ?_⟩
  intro row hr
  simp only [gridSlice2, List.mem_map] at hr
  obtain ⟨j, _, rfl⟩ := hr
  simp

/-- Decides whether q is of the form o + d * i for some index i below n,
i.e. whether q is a slice coordinate of the axis with origin o, spacing d and
extent n after the delta correction. -/
def isAxisCoord (o d : ℚ) (n : ℕ) (q : ℚ) : Bool :=
  (List.range n).any (fun i : ℕ => q == o + d * i)

/-- A 3x3x3 grid with distinct spacings per axis, used to separate the
coordinate values of the three axes. -/
def gC2 : VolumeGrid :=
  { s0 := 3, s1 := 3, s2 := 3, grid := fun _ _ _ => 0,
    d0 := 1, d1 := 2, d2 := 4, o0 := 0, o1 := 0, o2 := 0 }

/-- C2 counterexample: for the plane yz (collapsing axis 0, retaining axes 1
and 2), the first coordinate matrix returned by extract_slice contains the
entry 1, which is not of the form origin[a] + delta[a] * index for either
retained axis a (axis 1 yields 0, 2, 4 and axis 2 yields 0, 4, 8): the first
coordinate matrix actually carries the coordinates of the collapsed axis 0. -/
theorem slice_extraction_retained_axes_counterexample :
    extract_slice gC2 "yz" none =
      some ([[0, 0, 0], [1, 1, 1], [2, 2, 2]],
        [[0, 4, 8], [0, 4, 8], [0, 4, 8]],
        [[0, 0, 0], [0, 0, 0], [0, 0, 0]]) ∧
    (1 : ℚ) ∈ ([[0, 0, 0], [1, 1, 1], [2, 2, 2]] : Mat).flatten ∧
    isAxisCoord 0 2 3 1 = false ∧
    isAxisCoord 0 4 3 1 = false := by
  refine ⟨?_, by norm_num, ?_, ?_⟩
  · norm_num [extract_slice, create_meshgrid, meshgrid3, axisCoords, matSub,
      gridSlice0, gC2, List.range_succ]
  · norm_num [isAxisCoord, List.range_succ]
  · norm_num [isAxisCoord, List.range_succ]

/-- C2 (amended): with at omitted, extract_slice uses the center index
int(shape[axis]/2) of the collapsed axis and returns the raw grid at that
index as the value matrix, with coordinate entries origin[a] + delta[a]*index
(the plus-one offset canceled by subtracting delta); however the axes carried
by the two coordinate matrices are axis 0 and axis 2 for the plane yz, axis 1
and axis 2 for xz (the collapsed axis itself first, due to the transposed
meshgrid layout), and the retained axes 0 and 1 only for xy. -/
theorem slice_extraction_center_amended (g : VolumeGrid)
    (h0 : 0 < g.s0) (h1 : 0 < g.s1) (h2 : 0 < g.s2)
    (h01 : g.s0 / 2 < g.s1) (h10 : g.s1 / 2 < g.s0) :
    extract_slice g "yz" none =
      some (coordMatA g.s0 g.s2 g.o0 g.d0, coordMatB g.s0 g.s2 g.o2 g.d2,
        gridSlice0 g (g.s0 / 2)) ∧
    extract_slice g "xz" none =
      some (coordMatA g.s1 g.s2 g.o1 g.d1, coordMatB g.s1 g.s2 g.o2 g.d2,
        gridSlice1 g (g.s1 / 2)) ∧
    extract_slice g "xy" none =
      some (coordMatB g.s1 g.s0 g.o0 g.d0, coordMatA g.s1 g.s0 g.o1 g.d1,
        gridSlice2 g (g.s2 / 2)) :=
  extract_slice_none_eq g h0 h1 h2 h01 h10

/-- Witness for C2 at the concrete cubic grid gW. -/
theorem slice_extraction_center_witness :
    extract_slice gW "yz" none =
      some (coordMatA gW.s0 gW.s2 gW.o0 gW.d0, coordMatB gW.s0 gW.s2 gW.o2 gW.d2,
        gridSlice0 gW (gW.s0 / 2)) ∧
    extract_slice gW "xz" none =
      some (coordMatA gW.s1 gW.s2 gW.o1 gW.d1, coordMatB gW.s1 gW.s2 gW.o2 gW.d2,
        gridSlice1 gW (gW.s1 / 2)) ∧
    extract_slice gW "xy" none =
      some (coordMatB gW.s1 gW.s0 gW.o0 gW.d0, coordMatA gW.s1 gW.s0 gW.o1 gW.d1,
        gridSlice2 gW (gW.s2 / 2)) :=
  slice_extraction_center_amended gW (by decide) (by decide) (by decide)
    (by decide) (by decide)

/-- A 2x3x4 grid separating the three extents. -/
def g234 : VolumeGrid :=
  { s0 := 2, s1 := 3, s2 := 4, grid := fun _ _ _ => 0,
    d0 := 1, d1 := 1, d2 := 1, o0 := 0, o1 := 0, o2 := 0 }

/-- C10 counterexample: for the plane xz on a grid of shape (2, 3, 4), the
value matrix returned by extract_slice has 2 rows, i.e. shape (s0, s2), not
the claimed shape (s1, s2) with 3 rows. -/
theorem slice_extraction_shape_counterexample :
    (extract_slice g234 "xz" none).map (fun t => t.2.2.length) = some 2 ∧
    (2 : ℕ) ≠ 3 := by
  decide

/-- C10 (amended): for a grid of shape (s0, s1, s2), extract_slice returns
coordinate matrices of shape (s0, s2) and a value matrix of shape (s1, s2)
for the plane yz; coordinate matrices of shape (s1, s2) and a value matrix of
shape (s0, s2) for xz; and coordinate matrices of shape (s1, s0) with a value
matrix of shape (s0, s1) for xy — so coordinate and value shapes agree for
all three planes exactly when s0 = s1. -/
theorem slice_extraction_shapes_amended (g : VolumeGrid)
    (h0 : 0 < g.s0) (h1 : 0 < g.s1) (h2 : 0 < g.s2)
    (h01 : g.s0 / 2 < g.s1) (h10 : g.s1 / 2 < g.s0) :
    ∃ Xa Ya Da Xb Yb Db Xc Yc Dc,
      extract_slice g "yz" none = some (Xa, Ya, Da) ∧
        HasShape2 Xa g.s0 g.s2 ∧ HasShape2 Ya g.s0 g.s2 ∧
        HasShape2 Da g.s1 g.s2 ∧
      extract_slice g "xz" none = some (Xb, Yb, Db) ∧
        HasShape2 Xb g.s1 g.s2 ∧ HasShape2 Yb g.s1 g.s2 ∧
        HasShape2 Db g.s0 g.s2 ∧
      extract_slice g "xy" none = some (Xc, Yc, Dc) ∧
        HasShape2 Xc g.s1 g.s0 ∧ HasShape2 Yc g.s1 g.s0 ∧
        HasShape2 Dc g.s0 g.s1 := by
  obtain ⟨e1, e2, e3⟩ := extract_slice_none_eq g h0 h1 h2 h01 h10
  exact ⟨_, _, _, _, _, _, _, _, _, e1,
    coordMatA_shape g.s0 g.s2 g.o0 g.d0, coordMatB_shape g.s0 g.s2 g.o2 g.d2,
    gridSlice0_shape g (g.s0 / 2), e2,
    coordMatA_shape g.s1 g.s2 g.o1 g.d1, coordMatB_shape g.s1 g.s2 g.o2 g.d2,
    gridSlice1_shape g (g.s1 / 2), e3,
    coordMatB_shape g.s1 g.s0 g.o0 g.d0, coordMatA_shape g.s1 g.s0 g.o1 g.d1,
    gridSlice2_shape g (g.s2 / 2)⟩

/-- Witness for C10 at the concrete grid g234 of shape (2, 3, 4). -/
theorem slice_extraction_shapes_witness :
    ∃ Xa Ya Da Xb Yb Db Xc Yc Dc,
      extract_slice g234 "yz" none = some (Xa, Ya, Da) ∧
        HasShape2 Xa g234.s0 g234.s2 ∧ HasShape2 Ya g234.s0 g234.s2 ∧
        HasShape2 Da g234.s1 g234.s2 ∧
      extract_slice g234 "xz" none = some (Xb, Yb, Db) ∧
        HasShape2 Xb g234.s1 g234.s2 ∧ HasShape2 Yb g234.s1 g234.s2 ∧
        HasShape2 Db g234.s0 g234.s2 ∧
      extract_slice g234 "xy" none = some (Xc, Yc, Dc) ∧
        HasShape2 Xc g234.s1 g234.s0 ∧ HasShape2 Yc g234.s1 g234.s0 ∧
        HasShape2 Dc g234.s0 g234.s1 :=
  slice_extraction_shapes_amended g234 (by decide) (by decide) (by decide)
    (by decide) (by decide)

/-- mirror from dxtools.py: Xmir concatenates the negated row-reversed X with
X minus its first row along axis 0; Y is returned unchanged; Zmir
concatenates the column-reversed (optionally negated) Z with Z minus its
first column along axis 1. -/
def mirror (X Y Z : Mat) (invert_values : Bool) : Mat × Mat × Mat :=
  let Xmir := (X.reverse.map (fun r => r.map (fun q => -q))) ++ X.drop 1
  let Zhalf :=
    if invert_values then Z.map (fun r => (r.map (fun q => -q)).reverse)
    else Z.map (fun r => r.reverse)
  let Zmir := List.zipWith (fun a b => a ++ b) Zhalf (Z.map (fun r => r.drop 1))
  (Xmir, Y, Zmir)

/-- C6: evaluation of mirror at X = Y = Z = [[1,2],[3,4]] with
invert_values = false.  X is mirrored along axis 0 (rows), producing a 3x2
matrix, while Z is mirrored along axis 1 (columns), producing a 2x3 matrix;
the claimed mirroring of Z along the same axis as X would instead give
[[3,4],[1,2],[3,4]]. -/
theorem mirror_axis_mismatch_eval :
    mirror [[1, 2], [3, 4]] [[1, 2], [3, 4]] [[1, 2], [3, 4]] false =
      ([[-3, -4], [-1, -2], [3, 4]], [[1, 2], [3, 4]], [[2, 1, 2], [4, 3, 4]]) ∧
    ([[2, 1, 2], [4, 3, 4]] : Mat) ≠ [[3, 4], [1, 2], [3, 4]] := by
  refine ⟨?_, by norm_num⟩
  norm_num [mirror]

/-!
Radial averaging.  The planar radius r of a cell is sqrt of a rational, so
the NumPy comparisons of r against a bin edge b are modelled on the squared
radius q = r^2: for r, b >= 0 one has b <= r iff (b <= 0 or b^2 <= q),
r < b iff (0 < b and q < b^2), and r <= b iff (0 <= b and q <= b^2).
-/

/-- Decides b <= r for r = sqrt q with q >= 0. -/
def edgeLeSqrt (b q : ℚ) : Bool := decide (b ≤ 0) || decide (b ^ 2 ≤ q)

/-- Decides r < b for r = sqrt q with q >= 0. -/
def sqrtLtEdge (q b : ℚ) : Bool := decide (0 < b) && decide (q < b ^ 2)

/-- Decides r <= b for r = sqrt q with q >= 0. -/
def sqrtLeEdge (q b : ℚ) : Bool := decide (0 ≤ b) && decide (q ≤ b ^ 2)

/-- Bins of np.histogram for an explicit edge list: consecutive edge pairs,
with the final bin flagged as right-closed. -/
def binsOf : List ℚ → List (ℚ × ℚ × Bool)
  | [] => []
  | [_] => []
  | a :: b :: rest =>
    match rest with
    | [] => [(a, b, true)]
    | _ :: _ => (a, b, false) :: binsOf (b :: rest)

/-- Membership of a squared radius q in a bin (lo, hi, last): lo <= r < hi
for inner bins and lo <= r <= hi for the last bin, as in np.histogram. -/
def inBin (q : ℚ) (b : ℚ × ℚ × Bool) : Bool :=
  edgeLeSqrt b.1 q && (if b.2.2 then sqrtLeEdge q b.2.1 else sqrtLtEdge q b.2.1)

/-- np.ma.masked_array(xs, mask=excl).compressed(): the entries of xs whose
positional exclusion flag is false, in order. -/
def maskedCompress (xs : List ℚ) (excl : List Bool) : List ℚ :=
  ((xs.zip excl).filter (fun p => !p.2)).map Prod.fst

/-- Flattened (s1 x s0) array of squared planar radii relative to the
center: r = np.hypot(X[:,:,0]-cx, Y[:,:,0]-cy) on the transposed meshgrid
axes, row major. -/
def rFlat (g : VolumeGrid) (cx cy : ℚ) : List ℚ :=
  ((List.range g.s1).map (fun j => (List.range g.s0).map (fun i =>
    (xcoord g i - cx) ^ 2 + (ycoord g j - cy) ^ 2))).flatten

/-- Flattened (s0 x s1) slice of the raw data at height zi:
dxgrid_data.grid[:,:,zi], row major. -/
def dataFlat (g : VolumeGrid) (zi : ℕ) : List ℚ :=
  ((List.range g.s0).map (fun i => (List.range g.s1).map (fun j =>
    g.grid i j zi))).flatten

/-- Flattened exclusion mask at height zi, from
mask = ~dxgrid_mask.grid[:,:,zi].astype(bool): a cell is excluded exactly
where the mask grid value is zero. -/
def exclFlat (m : VolumeGrid) (zi : ℕ) : List Bool :=
  ((List.range m.s0).map (fun i => (List.range m.s1).map (fun j =>
    decide (m.grid i j zi = 0)))).flatten

/-- Exclusion flags used at height zi: the flattened mask grid slice when a
mask is supplied (NumPy reshapes it positionally onto the shape of r), or
all-false (mask=False) otherwise. -/
def exclOf (g : VolumeGrid) (mask? : Option VolumeGrid) (zi : ℕ) : List Bool :=
  match mask? with
  | none => List.replicate (g.s1 * g.s0) false
  | some m => exclFlat m zi

/-- Included (squared radius, value) pairs at height zi: the compressed
radius array zipped with the compressed data array, which np.histogram pairs
positionally as values and weights. -/
def cellPairs (g : VolumeGrid) (mask? : Option VolumeGrid) (cx cy : ℚ)
    (zi : ℕ) : List (ℚ × ℚ) :=
  (maskedCompress (rFlat g cx cy) (exclOf g mask? zi)).zip
    (maskedCompress (dataFlat g zi) (exclOf g mask? zi))

/-- Number of included cells of bin b at height zi (radial_counts). -/
def binCellCount (g : VolumeGrid) (mask? : Option VolumeGrid) (cx cy : ℚ)
    (zi : ℕ) (b : ℚ × ℚ × Bool) : ℕ :=
  ((cellPairs g mask? cx cy zi).filter (fun p => inBin p.1 b)).length

/-- Sum of included cell values of bin b at height zi (radial_profile). -/
def binCellSum (g : VolumeGrid) (mask? : Option VolumeGrid) (cx cy : ℚ)
    (zi : ℕ) (b : ℚ × ℚ × Bool) : ℚ :=
  (((cellPairs g mask? cx cy zi).filter (fun p => inBin p.1 b)).map
    Prod.snd).sum

/-- Per-height profile row: weighted sum divided by count per bin, where an
empty bin gives the float division 0/0, i.e. NaN, modelled as none. -/
def radialMeanRow (g : VolumeGrid) (mask? : Option VolumeGrid) (cx cy : ℚ)
    (zi : ℕ) (es : List ℚ) : List (Option ℚ) :=
  (binsOf es).map (fun b =>
    if binCellCount g mask? cx cy zi b = 0 then none
    else some (binCellSum g mask? cx cy zi b /
      (binCellCount g mask? cx cy zi b : ℚ)))

/-- Size compatibility of a supplied mask grid with the data grid: NumPy
reshapes the (m.s0, m.s1) mask slice onto the (s1, s0) radius array and onto
the (s0, s1) data slice whenever the total sizes agree, and the per-height
loop indexes the mask slice at every height of the data grid. -/
def maskOK (g : VolumeGrid) : Option VolumeGrid → Bool
  | none => true
  | some m => decide (m.s0 * m.s1 = g.s1 * g.s0) && decide (g.s2 ≤ m.s2)

/-- Core of _radial_average for an explicit edge list: per height index,
histogram counts and weighted sums over included cells, means per bin, and
the output meshgrid np.meshgrid(radii[:-1], Z[0,0,:]).  Degenerate planar
shapes (Z[0,0,:] raises IndexError, and an empty height axis leaves radii
undefined) and an incompatibly sized mask (MaskError) give none. -/
def radialAverageEdges (g : VolumeGrid) (mask? : Option VolumeGrid)
    (cx cy : ℚ) (es : List ℚ) :
    Option (Mat × Mat × List (List (Option ℚ))) :=
  if g.s0 = 0 ∨ g.s1 = 0 ∨ g.s2 = 0 then none
  else if maskOK g mask? then
    some ((List.range g.s2).map (fun _ => es.dropLast),
      (List.range g.s2).map (fun k => es.dropLast.map (fun _ => zcoord g k)),
      (List.range g.s2).map (fun zi => radialMeanRow g mask? cx cy zi es))
  else none

/-- arange(start, stop, step) of NumPy: ceil((stop-start)/step) entries
start + i*step. -/
def arange (start stop step : ℚ) : List ℚ :=
  (List.range (Int.toNat ⌈(stop - start) / step⌉)).map
    (fun i : ℕ => start + (i : ℚ) * step)

/-- Auto-mode bins of _radial_average when bins is None:
np.arange(0, extent[0]/2 + delta[0], delta[0]) with
extent = (shape - 1) * delta. -/
def autoBins (g : VolumeGrid) : List ℚ :=
  arange 0 (((g.s0 : ℚ) - 1) * g.d0 / 2 + g.d0) g.d0

/-- Bin edges used by _radial_average: the supplied list, or auto mode when
bins is None. -/
def effectiveInnerBins (g : VolumeGrid) (bins? : Option (List ℚ)) : List ℚ :=
  bins?.getD (autoBins g)

/-- _radial_average of dxtools.py, for bins given as an explicit edge list
or left as None (auto mode).  An integer bin count is only ever produced by
the outer wrapper, see radial_average. -/
def _radial_average (g : VolumeGrid) (mask? : Option VolumeGrid) (cx cy : ℚ)
    (bins? : Option (List ℚ)) :
    Option (Mat × Mat × List (List (Option ℚ))) :=
  radialAverageEdges g mask? cx cy (effectiveInnerBins g bins?)

/-- Bin specification of the outer radial_average wrapper: an integer count
or an explicit edge sequence, as np.histogram accepts. -/
inductive BinSpec where
  | count : ℕ → BinSpec
  | edges : List ℚ → BinSpec
deriving DecidableEq

/-- Bins passed down by radial_average: the callers choice, or the default
count 33 when bins is None. -/
def effectiveOuterBins (bins? : Option BinSpec) : BinSpec :=
  bins?.getD (BinSpec.count 33)

/-- radial_average of dxtools.py.  When a mask file is supplied, line 249
computes dxgrid_data * dxfile_mask, multiplying the data grid by the file
path string itself instead of the loaded mask grid; NumPy raises TypeError
before any averaging, modelled as none.  When an integer bin count reaches
np.histogram, the edges are linspace values between the smallest and largest
per-height radius, which are square roots with no exact rational value, so
that branch is not evaluated by this embedding (none); every claim below
evaluates radial averaging through an explicit edge list or auto mode. -/
def radial_average (g : VolumeGrid) (maskFile? : Option String) (cx cy : ℚ)
    (bins? : Option BinSpec) :
    Option (Mat × Mat × List (List (Option ℚ))) :=
  match maskFile? with
  | some _ => none
  | none =>
    match effectiveOuterBins bins? with
    | BinSpec.edges es => _radial_average g none cx cy (some es)
    | BinSpec.count _ => none

/-- C7: when no bin specification is supplied, the binning is one of two
modes selectable by call site: the outer wrapper (no hint) selects the single
default bin count 33 passed to np.histogram, and the inner auto mode selects
the edge sequence arange(0, extent[0]/2 + delta[0], delta[0]) with
extent[0] = (shape[0]-1)*delta[0], i.e. the s0/2 + 1 left-closed edges
0, d0, 2*d0, ..., (s0/2)*d0. -/
theorem radial_binning_modes (g : VolumeGrid) (hd : 0 < g.d0) :
    effectiveOuterBins none = BinSpec.count 33 ∧
    effectiveInnerBins g none = autoBins g ∧
    autoBins g =
      (List.range (g.s0 / 2 + 1)).map (fun i : ℕ => (i : ℚ) * g.d0) := by
  refine ⟨rfl, rfl, ?_⟩
  unfold autoBins arange
  have hd0 : g.d0 ≠ 0 := ne_of_gt hd
  have h1 : (((g.s0 : ℚ) - 1) * g.d0 / 2 + g.d0 - 0) / g.d0 =
      ((g.s0 : ℚ) + 1) / 2 := by
    field_simp
    ring
  have hceil : ⌈(((g.s0 : ℚ) + 1) / 2)⌉ = ((g.s0 / 2 + 1 : ℕ) : ℤ) := by
    obtain ⟨m, hm⟩ : ∃ m, g.s0 / 2 = m := ⟨g.s0 / 2, rfl⟩
    have hq1 : 2 * m ≤ g.s0 := by omega
    have hq2 : g.s0 ≤ 2 * m + 1 := by omega
    have hq1' : (2 * m : ℚ) ≤ (g.s0 : ℚ) := by exact_mod_cast hq1
    have hq2' : ((g.s0 : ℚ)) ≤ 2 * (m : ℚ) + 1 := by exact_mod_cast hq2
    rw [hm]
    refine Int.ceil_eq_iff.mpr ⟨?_, ?_⟩
    · push_cast
      rw [lt_div_iff₀ (by norm_num : (0 : ℚ) < 2)]
      linarith
    · push_cast
      rw [div_le_iff₀ (by norm_num : (0 : ℚ) < 2)]
      linarith
  rw [h1, hceil, Int.toNat_natCast]
  exact List.map_congr_left (fun i _ => by ring)

/-- Witness for C7 at the concrete grid gW (spacing 1, extent 3). -/
theorem radial_binning_modes_witness :
    effectiveOuterBins none = BinSpec.count 33 ∧
    effectiveInnerBins gW none = autoBins gW ∧
    autoBins gW =
      (List.range (gW.s0 / 2 + 1)).map (fun i : ℕ => (i : ℚ) * gW.d0) :=
  radial_binning_modes gW (by norm_num [gW])

/-- C8: for every grid, mask, center and explicit bin sequence, radial
averaging does not raise on an empty bin: the whole result is returned, and
a bin with zero included cells yields the undefined value none (NaN from the
float division 0/0) while every other bin still carries its weighted sum
divided by its count. -/
theorem radial_empty_bin_propagates (g : VolumeGrid)
    (mask? : Option VolumeGrid) (cx cy : ℚ) (es : List ℚ)
    (h0 : 0 < g.s0) (h1 : 0 < g.s1) (h2 : 0 < g.s2)
    (hm : maskOK g mask? = true) :
    ∃ Xr Yr Zr, _radial_average g mask? cx cy (some es) = some (Xr, Yr, Zr) ∧
      Zr.length = g.s2 ∧
      ∀ zi, zi < g.s2 →
        Zr[zi]? = some (radialMeanRow g mask? cx cy zi es) ∧
        ∀ (t : ℕ) (b : ℚ × ℚ × Bool), (binsOf es)[t]? = some b →
          (binCellCount g mask? cx cy zi b = 0 →
            (radialMeanRow g mask? cx cy zi es)[t]? = some none) ∧
          (binCellCount g mask? cx cy zi b ≠ 0 →
            (radialMeanRow g mask? cx cy zi es)[t]? =
              some (some (binCellSum g mask? cx cy zi b /
                (binCellCount g mask? cx cy zi b : ℚ)))) := by
  refine ⟨(List.range g.s2).map (fun _ => es.dropLast),
    (List.range g.s2).map (fun k => es.dropLast.map (fun _ => zcoord g k)),
    (List.range g.s2).map (fun zi => radialMeanRow g mask? cx cy zi es),
    ?_, ?_, ?_⟩
  · unfold _radial_average effectiveInnerBins radialAverageEdges
    rw [if_neg (by omega), if_pos hm]
    rfl
  · rw [List.length_map, List.length_range]
  · intro zi hzi
    constructor
    · rw [getElem?_map_of_lt _ _ (by rw [List.length_range]; exact hzi)]
      congr 2
      simp
    · intro t b hb
      have hrow : (radialMeanRow g mask? cx cy zi es)[t]? =
          ((binsOf es)[t]?).map (fun b =>
            if binCellCount g mask? cx cy zi b = 0 then none
            else some (binCellSum g mask? cx cy zi b /
              (binCellCount g mask? cx cy zi b : ℚ))) := by
        unfold radialMeanRow
        rw [List.getElem?_map]
      constructor
      · intro hc
        rw [hrow, hb, Option.map_some', if_pos hc]
      · intro hc
        rw [hrow, hb, Option.map_some', if_neg hc]

/-- Witness for C8: the concrete grid gW with no mask and bins 0, 1, 2. -/
theorem radial_empty_bin_witness :
    ∃ Xr Yr Zr,
      _radial_average gW none 0 0 (some [0, 1, 2]) = some (Xr, Yr, Zr) ∧
      Zr.length = gW.s2 ∧
      ∀ zi, zi < gW.s2 →
        Zr[zi]? = some (radialMeanRow gW none 0 0 zi [0, 1, 2]) ∧
        ∀ (t : ℕ) (b : ℚ × ℚ × Bool), (binsOf [0, 1, 2])[t]? = some b →
          (binCellCount gW none 0 0 zi b = 0 →
            (radialMeanRow gW none 0 0 zi [0, 1, 2])[t]? = some none) ∧
          (binCellCount gW none 0 0 zi b ≠ 0 →
            (radialMeanRow gW none 0 0 zi [0, 1, 2])[t]? =
              some (some (binCellSum gW none 0 0 zi b /
                (binCellCount gW none 0 0 zi b : ℚ)))) :=
  radial_empty_bin_propagates gW none 0 0 [0, 1, 2] (by decide) (by decide)
    (by decide) rfl

theorem flatten_replicate_rep {α : Type} (n m : ℕ) (x : α) :
    (List.replicate n (List.replicate m x)).flatten = List.replicate (n * m) x := by
  induction n with
  | zero => simp
  | succ k ih =>
    rw [List.replicate_succ, List.flatten_cons, ih,
      show (k + 1) * m = m + k * m from by ring, List.replicate_add]

theorem exclFlat_all_false (m : VolumeGrid) (zi : ℕ) (hzi : zi < m.s2)
    (hall : ∀ i j k, i < m.s0 → j < m.s1 → k < m.s2 → m.grid i j k ≠ 0) :
    exclFlat m zi = List.replicate (m.s0 * m.s1) false := by
  unfold exclFlat
  have hrow : ∀ i ∈ List.range m.s0,
      (List.range m.s1).map (fun j => decide (m.grid i j zi = 0)) =
        List.replicate m.s1 false := by
    intro i hi
    have hfalse : ∀ j ∈ List.range m.s1, decide (m.grid i j zi = 0) = false := by
      intro j hj
      exact decide_eq_false
        (hall i j zi (List.mem_range.mp hi) (List.mem_range.mp hj) hzi)
    rw [List.map_congr_left hfalse, List.map_const', List.length_range]
  rw [List.map_congr_left hrow, List.map_const', List.length_range,
    flatten_replicate_rep]

theorem radialAverageEdges_mask_neutral (g m : VolumeGrid) (cx cy : ℚ)
    (es : List ℚ) (h0 : m.s0 = g.s0) (h1 : m.s1 = g.s1) (h2 : m.s2 = g.s2)
    (hall : ∀ i j k, i < m.s0 → j < m.s1 → k < m.s2 → m.grid i j k ≠ 0) :
    radialAverageEdges g (some m) cx cy es =
      radialAverageEdges g none cx cy es := by
  have hexcl : ∀ zi, zi < g.s2 → exclOf g (some m) zi = exclOf g none zi := by
    intro zi hzi
    show exclFlat m zi = List.replicate (g.s1 * g.s0) false
    rw [exclFlat_all_false m zi (by omega) hall, h0, h1, Nat.mul_comm]
  have hmask : maskOK g (some m) = true := by
    simp [maskOK, h0, h1, h2, Nat.mul_comm]
  unfold radialAverageEdges
  by_cases hdeg : g.s0 = 0 ∨ g.s1 = 0 ∨ g.s2 = 0
  · rw [if_pos hdeg, if_pos hdeg]
  · rw [if_neg hdeg, if_neg hdeg, if_pos hmask,
      if_pos (show maskOK g none = true from rfl)]
    have hC : (List.range g.s2).map
          (fun zi => radialMeanRow g (some m) cx cy zi es) =
        (List.range g.s2).map (fun zi => radialMeanRow g none cx cy zi es) := by
      apply List.map_congr_left
      intro zi hzi
      unfold radialMeanRow binCellCount binCellSum cellPairs
      rw [hexcl zi (List.mem_range.mp hzi)]
    rw [hC]

/-- C4: when a mask file is supplied, radial_average multiplies the data
grid by the file path string itself (dxgrid_data * dxfile_mask, a
TypeError, modelled none), so the claimed intersection with the loaded mask
grid never takes place; the inner averaging is nevertheless mask-neutral:
an all-nonzero (all-true) mask of the same shape with an explicit bin
sequence returns exactly the coordinate matrices and value matrix of the
no-mask call. -/
theorem radial_mask_intersection_bug :
    radial_average gW (some "mask.dx") 0 0 (some (BinSpec.edges [0, 1, 2])) =
      none ∧
    ∀ (g m : VolumeGrid) (cx cy : ℚ) (es : List ℚ),
      m.s0 = g.s0 → m.s1 = g.s1 → m.s2 = g.s2 →
      (∀ i j k, i < m.s0 → j < m.s1 → k < m.s2 → m.grid i j k ≠ 0) →
      _radial_average g (some m) cx cy (some es) =
        _radial_average g none cx cy (some es) := by
  refine ⟨rfl, ?_⟩
  intro g m cx cy es h0 h1 h2 hall
  simp only [_radial_average, effectiveInnerBins, Option.getD_some]
  exact radialAverageEdges_mask_neutral g m cx cy es h0 h1 h2 hall

/-- The all-ones 3x3x3 grid with unit spacing and zero origin. -/
def gOnes : VolumeGrid :=
  { s0 := 3, s1 := 3, s2 := 3, grid := fun _ _ _ => 1,
    d0 := 1, d1 := 1, d2 := 1, o0 := 0, o1 := 0, o2 := 0 }

/-- Witness for C4: the all-ones mask on gW with bins 0, 1, 2. -/
theorem radial_mask_neutral_witness :
    _radial_average gW (some gOnes) 0 0 (some [0, 1, 2]) =
      _radial_average gW none 0 0 (some [0, 1, 2]) :=
  radial_mask_intersection_bug.2 gW gOnes 0 0 [0, 1, 2] rfl rfl rfl
    (fun i j k _ _ _ => by norm_num [gOnes])

/-- C3 counterexample: for the all-ones 3x3x3 grid with unit spacing, zero
origin, no mask, center (0,0) and bins 0, 1, 2, the profile row at the
middle height index is [none, some 1]: the first bin is empty (NaN), not
1.0, because the plus-one coordinate offset puts every cell at squared
radius at least 2. -/
theorem radial_scenario_counterexample :
    (_radial_average gOnes none 0 0 (some [0, 1, 2])).map
      (fun t => t.2.2[1]?) = some (some [none, some 1]) ∧
    some (some [none, some (1 : ℚ)]) ≠ some (some [some 1, some 1]) ∧
    (none : Option ℚ) ∈ [none, some (1 : ℚ)] := by
  refine ⟨?_, by simp, by simp⟩
  norm_num [_radial_average, effectiveInnerBins, radialAverageEdges, maskOK,
    radialMeanRow, binCellCount, binCellSum, cellPairs, maskedCompress,
    exclOf, rFlat, dataFlat, xcoord, ycoord, zcoord, binsOf, inBin,
    edgeLeSqrt, sqrtLeEdge, sqrtLtEdge, gOnes, List.range_succ,
    List.filter_cons, List.filter_nil, List.replicate_succ,
    List.zip_cons_cons, List.sum_cons, List.sum_nil]

/-- C3 (amended): for the all-ones 3x3x3 grid with unit spacing, zero
origin, no mask, center (0,0) and bins 0, 1, 2, radial averaging returns
radius coordinates 0, 1 (left edges), height coordinates 1, 2, 3, and at
every height index the profile row [none, some 1]: the bin [0,1) contains no
cell (NaN, 0/0) and the bin [1,2] contains exactly the cell at squared
radius 2 with value 1. -/
theorem radial_scenario_amended :
    _radial_average gOnes none 0 0 (some [0, 1, 2]) =
      some ([[0, 1], [0, 1], [0, 1]],
            [[1, 1], [2, 2], [3, 3]],
            [[none, some 1], [none, some 1], [none, some 1]]) := by
  norm_num [_radial_average, effectiveInnerBins, radialAverageEdges, maskOK,
    radialMeanRow, binCellCount, binCellSum, cellPairs, maskedCompress,
    exclOf, rFlat, dataFlat, xcoord, ycoord, zcoord, binsOf, inBin,
    edgeLeSqrt, sqrtLeEdge, sqrtLtEdge, gOnes, List.range_succ,
    List.filter_cons, List.filter_nil, List.replicate_succ,
    List.zip_cons_cons, List.sum_cons, List.sum_nil]

/-- np.trapz(y, x): the composite trapezoidal rule over consecutive sample
pairs. -/
def trapz : List ℚ → List ℚ → ℚ
  | y1 :: y2 :: yt, x1 :: x2 :: xt =>
    (x2 - x1) * (y1 + y2) / 2 + trapz (y2 :: yt) (x2 :: xt)
  | _, _ => 0

/-- The inside-the-disk indicator R_mask of _cylindrical_average at x-index
i and y-index j: hypot(x-cx, y-cy) <= radius as 0 or 1, decided on squared
quantities (true iff radius is nonnegative and the squared distance is at
most radius squared). -/
def diskInd (g : VolumeGrid) (radius cx cy : ℚ) (i j : ℕ) : ℚ :=
  if 0 ≤ radius ∧ (xcoord g i - cx) ^ 2 + (ycoord g j - cy) ^ 2 ≤ radius ^ 2
  then 1 else 0

/-- Disk area at height k: trapz along meshgrid axis 1 with x=X, then trapz
along axis 0 with x=Y[:,0,:], of the indicator.  The indicator does not
depend on k, but the code evaluates the double integral for every height. -/
def cylArea (g : VolumeGrid) (radius cx cy : ℚ) (_k : ℕ) : ℚ :=
  trapz ((List.range g.s1).map (fun a =>
      trapz ((List.range g.s0).map (fun b => diskInd g radius cx cy b a))
        ((List.range g.s0).map (fun b => xcoord g b))))
    ((List.range g.s1).map (fun a => ycoord g a))

/-- Double trapezoidal integral at height k of the scalar field multiplied
by the indicator: dxgrid_data.grid * R_mask pairs grid[a,b,k] with the
indicator at x-index b and y-index a (the meshgrid axes are transposed), so
the integrand at (a, b) is grid a b k * diskInd b a. -/
def cylIntegral (g : VolumeGrid) (radius cx cy : ℚ) (k : ℕ) : ℚ :=
  trapz ((List.range g.s1).map (fun a =>
      trapz ((List.range g.s0).map (fun b =>
          g.grid a b k * diskInd g radius cx cy b a))
        ((List.range g.s0).map (fun b => xcoord g b))))
    ((List.range g.s1).map (fun a => ycoord g a))

/-- _cylindrical_average of dxtools.py: height coordinates Z[0,0,:] and, per
height index, integral / area, where a zero area gives the float division
by zero (NaN or inf), modelled as none.  The product grid * R_mask requires
matching planar dimensions (the NumPy broadcast that stretches a degenerate
axis of size one is not modelled), and Z[0,0,:] requires both planar axes to
be nonempty; otherwise none. -/
def _cylindrical_average (g : VolumeGrid) (radius cx cy : ℚ) :
    Option (List ℚ × List (Option ℚ)) :=
  if g.s0 = g.s1 ∧ 0 < g.s0 ∧ 0 < g.s1 then
    some ((List.range g.s2).map (fun k => zcoord g k),
      (List.range g.s2).map (fun k =>
        if cylArea g radius cx cy k = 0 then none
        else some (cylIntegral g radius cx cy k / cylArea g radius cx cy k)))
  else none

/-- C9: cylindrical averaging computes, per height index, the ratio of the
double trapezoidal integral of the masked field to the double trapezoidal
integral of the disk indicator; for the 3x3x3 all-ones grid with unit
spacing, zero origin, radius 10 and center (0,0) the disk covers the whole
plane and the average is exactly 1.0 at every height index, with height
coordinates 1, 2, 3. -/
theorem cylindrical_scenario :
    _cylindrical_average gOnes 10 0 0 =
      some ([1, 2, 3], [some 1, some 1, some 1]) := by
  norm_num [_cylindrical_average, cylArea, cylIntegral, diskInd, trapz,
    xcoord, ycoord, zcoord, gOnes, List.range_succ]

/-!
Tabular serialization (write_csv / read_csv / df2grid).  The text format
itself is exact: the default float repr round-trips, so a persisted and
re-parsed value is the value written, and only the explicit rounding of
read_csv changes anything.
-/

/-- Round half to even to an integer, the np.round and DataFrame.round
semantics. -/
def roundHalfEven (x : ℚ) : ℤ :=
  if x - ⌊x⌋ < 1 / 2 then ⌊x⌋
  else if 1 / 2 < x - ⌊x⌋ then ⌊x⌋ + 1
  else if 2 ∣ ⌊x⌋ then ⌊x⌋ else ⌊x⌋ + 1

/-- DataFrame.round(N): round to N decimal places, half to even. -/
def roundDec (N : ℕ) (q : ℚ) : ℚ := (roundHalfEven (q * 10 ^ N) : ℚ) / 10 ^ N

/-- Row-major flattening, ndarray.ravel. -/
def ravel (M : Mat) : List ℚ := M.flatten

/-- Lexicographic comparison used by sort_index over the composite (x, y)
index. -/
def rowLe (p q : ℚ × ℚ × ℚ) : Bool :=
  decide (p.1 < q.1) || (decide (p.1 = q.1) && decide (p.2.1 ≤ q.2.1))

/-- write_csv for a dataset with columns named x, y and a value column:
ravel each array, form the rows, set the composite index (x, y) and sort.
Columns of different lengths cannot form a DataFrame: none. -/
def write_csv (X Y Z : Mat) : Option (List (ℚ × ℚ × ℚ)) :=
  if (ravel X).length = (ravel Z).length ∧ (ravel Y).length = (ravel Z).length
  then some (((ravel X).zip ((ravel Y).zip (ravel Z))).mergeSort rowLe)
  else none

/-- read_csv: parse the persisted rows back (exact), round every column to
N decimals, restore the composite index and sort. -/
def read_csv (N : ℕ) (rows : List (ℚ × ℚ × ℚ)) : List (ℚ × ℚ × ℚ) :=
  (rows.map (fun r => (roundDec N r.1, roundDec N r.2.1, roundDec N r.2.2))).mergeSort
    rowLe

/-- Insertion into a sorted duplicate-free list. -/
def sortedInsert (a : ℚ) : List ℚ → List ℚ
  | [] => [a]
  | b :: t =>
    if a < b then a :: b :: t
    else if a = b then b :: t
    else b :: sortedInsert a t

/-- Sorted distinct values of a list: the level values of a pandas index. -/
def uniqueSorted (l : List ℚ) : List ℚ := l.foldr sortedInsert []

/-- np.meshgrid(x, y): the first output broadcasts x along rows, the second
broadcasts y down columns; both have shape (y.length, x.length). -/
def meshgrid2 (xs ys : List ℚ) : Mat × Mat :=
  (ys.map (fun _ => xs), ys.map (fun y => xs.map (fun _ => y)))

/-- The unstacked cell at key (x, y): the value of the row with that key; a
missing combination is NaN (none). -/
def lookupXY (rows : List (ℚ × ℚ × ℚ)) (x y : ℚ) : Option ℚ :=
  (rows.find? (fun r => r.1 == x && r.2.1 == y)).map (fun r => r.2.2)

/-- df2grid: unstack the (x, y)-indexed table on the x level; the columns
are the sorted distinct x values, the index the sorted distinct y values,
the value matrix holds the looked-up cells, and the coordinate matrices are
np.meshgrid(x, y).  Duplicate index entries cannot be unstacked
(ValueError): none. -/
def df2grid (rows : List (ℚ × ℚ × ℚ)) :
    Option (Mat × Mat × List (List (Option ℚ))) :=
  if (rows.map (fun r => (r.1, r.2.1))).Nodup then
    some ((meshgrid2 (uniqueSorted (rows.map (fun r => r.1)))
        (uniqueSorted (rows.map (fun r => r.2.1)))).1,
      (meshgrid2 (uniqueSorted (rows.map (fun r => r.1)))
        (uniqueSorted (rows.map (fun r => r.2.1)))).2,
      (uniqueSorted (rows.map (fun r => r.2.1))).map (fun y =>
        (uniqueSorted (rows.map (fun r => r.1))).map (fun x =>
          lookupXY rows x y)))
  else none

/-- The round-trip of C5: write the dataset, read it back rounding to N
decimals, pivot the table to a grid. -/
def write_read_pivot (N : ℕ) (X Y Z : Mat) :
    Option (Mat × Mat × List (List (Option ℚ))) :=
  (write_csv X Y Z).bind (fun rows => df2grid (read_csv N rows))

theorem roundHalfEven_dist (x : ℚ) : |((roundHalfEven x : ℚ)) - x| ≤ 1 / 2 := by
  have hfl : (⌊x⌋ : ℚ) ≤ x := Int.floor_le x
  have hfu : x < ⌊x⌋ + 1 := Int.lt_floor_add_one x
  unfold roundHalfEven
  by_cases h1 : x - ⌊x⌋ < 1 / 2
  · rw [if_pos h1, abs_le]
    constructor <;> linarith
  · rw [if_neg h1]
    by_cases h2 : 1 / 2 < x - ⌊x⌋
    · rw [if_pos h2, abs_le]
      push_cast
      constructor <;> linarith
    · rw [if_neg h2]
      have heq : x - ⌊x⌋ = 1 / 2 := by linarith
      by_cases h3 : 2 ∣ ⌊x⌋
      · rw [if_pos h3, abs_le]
        constructor <;> linarith
      · rw [if_neg h3, abs_le]
        push_cast
        constructor <;> linarith

theorem roundDec_dist (N : ℕ) (q : ℚ) : |roundDec N q - q| ≤ 1 / 10 ^ N := by
  have hp : (0 : ℚ) < 10 ^ N := by positivity
  have h := roundHalfEven_dist (q * 10 ^ N)
  unfold roundDec
  rw [show (roundHalfEven (q * 10 ^ N) : ℚ) / 10 ^ N - q =
      ((roundHalfEven (q * 10 ^ N) : ℚ) - q * 10 ^ N) / 10 ^ N from by
        field_simp; ring, abs_div, abs_of_pos hp, div_le_div_iff₀ hp hp]
  calc |(roundHalfEven (q * 10 ^ N) : ℚ) - q * 10 ^ N| * 10 ^ N
      ≤ (1 / 2) * 10 ^ N := by
        exact mul_le_mul_of_nonneg_right h (le_of_lt hp)
    _ ≤ 1 * 10 ^ N := by nlinarith

theorem mem_sortedInsert (a x : ℚ) (l : List ℚ) :
    x ∈ sortedInsert a l ↔ x = a ∨ x ∈ l := by
  induction l with
  | nil => simp [sortedInsert]
  | cons b t ih =>
    unfold sortedInsert
    by_cases h1 : a < b
    · rw [if_pos h1]
      simp only [List.mem_cons]
    · rw [if_neg h1]
      by_cases h2 : a = b
      · subst h2
        rw [if_pos rfl]
        simp only [List.mem_cons]
        tauto
      · rw [if_neg h2]
        simp only [List.mem_cons, ih]
        tauto

theorem pairwise_sortedInsert (a : ℚ) (l : List ℚ)
    (hl : l.Pairwise (· < ·)) : (sortedInsert a l).Pairwise (· < ·) := by
  induction l with
  | nil => simp [sortedInsert]
  | cons b t ih =>
    rw [List.pairwise_cons] at hl
    unfold sortedInsert
    by_cases h1 : a < b
    · rw [if_pos h1]
      refine List.pairwise_cons.mpr ⟨?_, List.pairwise_cons.mpr ⟨hl.1, hl.2⟩⟩
      intro x hx
      rcases List.mem_cons.mp hx with rfl | hx'
      · exact h1
      · exact lt_trans h1 (hl.1 x hx')
    · rw [if_neg h1]
      by_cases h2 : a = b
      · rw [if_pos h2]
        exact List.pairwise_cons.mpr ⟨hl.1, hl.2⟩
      · rw [if_neg h2]
        refine List.pairwise_cons.mpr ⟨?_, ih hl.2⟩
        intro x hx
        rcases (mem_sortedInsert a x t).mp hx with rfl | hx'
        · exact lt_of_le_of_ne (le_of_not_lt h1) (Ne.symm h2)
        · exact hl.1 x hx'

theorem mem_uniqueSorted (l : List ℚ) (x : ℚ) :
    x ∈ uniqueSorted l ↔ x ∈ l := by
  induction l with
  | nil => simp [uniqueSorted]
  | cons b t ih =>
    rw [show uniqueSorted (b :: t) = sortedInsert b (uniqueSorted t) from rfl,
      mem_sortedInsert, ih, List.mem_cons]

theorem pairwise_uniqueSorted (l : List ℚ) :
    (uniqueSorted l).Pairwise (· < ·) := by
  induction l with
  | nil => simp [uniqueSorted]
  | cons b t ih => exact pairwise_sortedInsert b (uniqueSorted t) ih

theorem pairwise_lt_ext :
    ∀ (l1 l2 : List ℚ), l1.Pairwise (· < ·) → l2.Pairwise (· < ·) →
      (∀ a, a ∈ l1 ↔ a ∈ l2) → l1 = l2
  | [], [], _, _, _ => rfl
  | [], b :: t2, _, _, h =>
    absurd ((h b).mpr (List.mem_cons_self b t2)) (List.not_mem_nil b)
  | a :: t1, [], _, _, h =>
    absurd ((h a).mp (List.mem_cons_self a t1)) (List.not_mem_nil a)
  | a :: t1, b :: t2, h1, h2, h => by
    rw [List.pairwise_cons] at h1 h2
    have hab : a = b := by
      rcases List.mem_cons.mp ((h a).mp (List.mem_cons_self a t1)) with h' | h'
      · exact h'
      · rcases List.mem_cons.mp ((h b).mpr (List.mem_cons_self b t2)) with
          h'' | h''
        · exact h''.symm
        · exact absurd (lt_trans (h2.1 a h') (h1.1 b h'')) (lt_irrefl b)
    subst hab
    have ht : ∀ x, x ∈ t1 ↔ x ∈ t2 := by
      intro x
      constructor
      · intro hx
        rcases List.mem_cons.mp ((h x).mp (List.mem_cons_of_mem a hx)) with
          rfl | hx'
        · exact absurd (h1.1 x hx) (lt_irrefl x)
        · exact hx'
      · intro hx
        rcases List.mem_cons.mp ((h x).mpr (List.mem_cons_of_mem a hx)) with
          rfl | hx'
        · exact absurd (h2.1 x hx) (lt_irrefl x)
        · exact hx'
    rw [pairwise_lt_ext t1 t2 h1.2 h2.2 ht]

theorem uniqueSorted_eq_of_mem_iff (l : List ℚ) (target : List ℚ)
    (htarget : target.Pairwise (· < ·)) (hmem : ∀ a, a ∈ l ↔ a ∈ target) :
    uniqueSorted l = target :=
  pairwise_lt_ext (uniqueSorted l) target (pairwise_uniqueSorted l) htarget
    (fun a => (mem_uniqueSorted l a).trans (hmem a))

theorem find?_key_unique (rows : List (ℚ × ℚ × ℚ))
    (hnd : (rows.map (fun r => (r.1, r.2.1))).Nodup)
    (r : ℚ × ℚ × ℚ) (hr : r ∈ rows) :
    rows.find? (fun s => s.1 == r.1 && s.2.1 == r.2.1) = some r := by
  induction rows with
  | nil => cases hr
  | cons hd tl ih =>
    rw [List.map_cons, List.nodup_cons] at hnd
    rcases List.mem_cons.mp hr with rfl | hr'
    · rw [List.find?_cons_of_pos _ (by simp)]
    · by_cases hp : (hd.1 == r.1 && hd.2.1 == r.2.1) = true
      · exfalso
        have hkey : (hd.1, hd.2.1) = (r.1, r.2.1) := by
          simp only [Bool.and_eq_true, beq_iff_eq] at hp
          exact Prod.ext hp.1 hp.2
        exact hnd.1 (hkey ▸ List.mem_map_of_mem (fun s => (s.1, s.2.1)) hr')
      · rw [List.find?_cons_of_neg _ (by simpa using hp)]
        exact ih hnd.2 hr'

theorem lookupXY_of_mem (rows : List (ℚ × ℚ × ℚ))
    (hnd : (rows.map (fun r => (r.1, r.2.1))).Nodup)
    (r : ℚ × ℚ × ℚ) (hr : r ∈ rows) :
    lookupXY rows r.1 r.2.1 = some r.2.2 := by
  unfold lookupXY
  rw [find?_key_unique rows hnd r hr]
  rfl

/-- Long-format rows of a meshgrid dataset: one block per y value, pairing
the x values with the matching row of the value matrix. -/
def rowsOf (xs ys : List ℚ) (Z : Mat) : List (ℚ × ℚ × ℚ) :=
  (List.zipWith (fun y zr => List.zipWith (fun x z => (x, y, z)) xs zr)
    ys Z).flatten

theorem zip_mesh_block (y : ℚ) :
    ∀ (xs zr : List ℚ), zr.length = xs.length →
      xs.zip ((xs.map (fun _ => y)).zip zr) =
        List.zipWith (fun x z => (x, y, z)) xs zr
  | [], _, _ => by simp
  | x :: xt, [], h => by simp at h
  | x :: xt, z :: zt, h => by
    simp only [List.map_cons, List.zip_cons_cons, List.zipWith_cons_cons]
    rw [zip_mesh_block y xt zt (by simpa using h)]

theorem ravel_mesh_rows (xs : List ℚ) :
    ∀ (ys : List ℚ) (Z : Mat), Z.length = ys.length →
      (∀ r ∈ Z, r.length = xs.length) →
      (ravel (meshgrid2 xs ys).1).zip
        ((ravel (meshgrid2 xs ys).2).zip (ravel Z)) = rowsOf xs ys Z := by
  intro ys
  induction ys with
  | nil =>
    intro Z hZ _
    obtain rfl := List.length_eq_zero.mp hZ
    rfl
  | cons y yt ih =>
    intro Z hZ hrow
    cases Z with
    | nil => simp at hZ
    | cons zr Zt =>
      have hzr : zr.length = xs.length := hrow zr (List.mem_cons_self zr Zt)
      have hZt : Zt.length = yt.length := by simpa using hZ
      have hrowt : ∀ r ∈ Zt, r.length = xs.length :=
        fun r hr => hrow r (List.mem_cons_of_mem zr hr)
      simp only [meshgrid2, ravel, rowsOf, List.map_cons, List.flatten_cons,
        List.zipWith_cons_cons] at ih ⊢
      rw [List.zip_append (by simp [hzr]),
        List.zip_append (by simp [List.length_zip, hzr]),
        zip_mesh_block y xs zr hzr, ih Zt hZt hrowt]

theorem map_round_block (f : ℚ → ℚ) (y : ℚ) :
    ∀ (xs zr : List ℚ),
      (List.zipWith (fun x z => (x, y, z)) xs zr).map
        (fun r => (f r.1, f r.2.1, f r.2.2)) =
      List.zipWith (fun x z => (x, f y, z)) (xs.map f) (zr.map f)
  | [], _ => by simp
  | _ :: _, [] => by simp
  | x :: xt, z :: zt => by
    simp only [List.zipWith_cons_cons, List.map_cons]
    rw [map_round_block f y xt zt]

theorem map_round_rowsOf (f : ℚ → ℚ) (xs : List ℚ) :
    ∀ (ys : List ℚ) (Z : Mat),
      (rowsOf xs ys Z).map (fun r => (f r.1, f r.2.1, f r.2.2)) =
        rowsOf (xs.map f) (ys.map f) (Z.map (fun r => r.map f))
  | [], _ => by simp [rowsOf]
  | _ :: _, [] => by simp [rowsOf]
  | y :: yt, zr :: Zt => by
    simp only [rowsOf, List.zipWith_cons_cons, List.flatten_cons,
      List.map_append, List.map_cons]
    rw [map_round_block f y xs zr]
    have := map_round_rowsOf f xs yt Zt
    simp only [rowsOf] at this
    rw [this]

theorem map_fst_zip_mesh (y : ℚ) :
    ∀ (xs zr : List ℚ), zr.length = xs.length →
      (List.zipWith (fun x z => (x, y, z)) xs zr).map (fun r => r.1) = xs
  | [], _, _ => by simp
  | x :: xt, [], h => by simp at h
  | x :: xt, z :: zt, h => by
    simp only [List.zipWith_cons_cons, List.map_cons]
    rw [map_fst_zip_mesh y xt zt (by simpa using h)]

theorem map_snd_zip_mesh (y : ℚ) :
    ∀ (xs zr : List ℚ), zr.length = xs.length →
      (List.zipWith (fun x z => (x, y, z)) xs zr).map (fun r => r.2.1) =
        List.replicate xs.length y
  | [], _, _ => by simp
  | x :: xt, [], h => by simp at h
  | x :: xt, z :: zt, h => by
    simp only [List.zipWith_cons_cons, List.map_cons, List.length_cons,
      List.replicate_succ]
    rw [map_snd_zip_mesh y xt zt (by simpa using h)]

theorem mem_fst_rowsOf (xs : List ℚ) :
    ∀ (ys : List ℚ) (Z : Mat), Z.length = ys.length →
      (∀ r ∈ Z, r.length = xs.length) →
      ∀ a, (a ∈ (rowsOf xs ys Z).map (fun r => r.1) ↔ (a ∈ xs ∧ ys ≠ [])) := by
  intro ys
  induction ys with
  | nil =>
    intro Z hZ _ a
    obtain rfl := List.length_eq_zero.mp hZ
    simp [rowsOf]
  | cons y yt ih =>
    intro Z hZ hrow a
    cases Z with
    | nil => simp at hZ
    | cons zr Zt =>
      have hzr : zr.length = xs.length := hrow zr (List.mem_cons_self zr Zt)
      have hZt : Zt.length = yt.length := by simpa using hZ
      have hrowt : ∀ r ∈ Zt, r.length = xs.length :=
        fun r hr => hrow r (List.mem_cons_of_mem zr hr)
      simp only [rowsOf, List.zipWith_cons_cons, List.flatten_cons,
        List.map_append, List.mem_append, map_fst_zip_mesh y xs zr hzr]
      have ihm := ih Zt hZt hrowt a
      simp only [rowsOf] at ihm
      rw [ihm]
      constructor
      · rintro (h | ⟨h, _⟩) <;> exact ⟨h, List.cons_ne_nil y yt⟩
      · rintro ⟨h, _⟩
        exact Or.inl h

theorem mem_snd_rowsOf (xs : List ℚ) (hxs : xs ≠ []) :
    ∀ (ys : List ℚ) (Z : Mat), Z.length = ys.length →
      (∀ r ∈ Z, r.length = xs.length) →
      ∀ a, (a ∈ (rowsOf xs ys Z).map (fun r => r.2.1) ↔ a ∈ ys) := by
  intro ys
  induction ys with
  | nil =>
    intro Z hZ _ a
    obtain rfl := List.length_eq_zero.mp hZ
    simp [rowsOf]
  | cons y yt ih =>
    intro Z hZ hrow a
    cases Z with
    | nil => simp at hZ
    | cons zr Zt =>
      have hzr : zr.length = xs.length := hrow zr (List.mem_cons_self zr Zt)
      have hZt : Zt.length = yt.length := by simpa using hZ
      have hrowt : ∀ r ∈ Zt, r.length = xs.length :=
        fun r hr => hrow r (List.mem_cons_of_mem zr hr)
      simp only [rowsOf, List.zipWith_cons_cons, List.flatten_cons,
        List.map_append, List.mem_append, map_snd_zip_mesh y xs zr hzr]
      have ihm := ih Zt hZt hrowt a
      simp only [rowsOf] at ihm
      rw [ihm, List.mem_replicate, List.mem_cons]
      have hlen : xs.length ≠ 0 := fun h => hxs (List.length_eq_zero.mp h)
      constructor
      · rintro (⟨_, rfl⟩ | h)
        · exact Or.inl rfl
        · exact Or.inr h
      · rintro (rfl | h)
        · exact Or.inl ⟨hlen, rfl⟩
        · exact Or.inr h

theorem map_key_zip_mesh (y : ℚ) :
    ∀ (xs zr : List ℚ), zr.length = xs.length →
      (List.zipWith (fun x z => (x, y, z)) xs zr).map
        (fun r => (r.1, r.2.1)) = xs.map (fun x => (x, y))
  | [], _, _ => by simp
  | x :: xt, [], h => by simp at h
  | x :: xt, z :: zt, h => by
    simp only [List.zipWith_cons_cons, List.map_cons]
    rw [map_key_zip_mesh y xt zt (by simpa using h)]

theorem key_snd_of_mem_block (y : ℚ) :
    ∀ (xs zr : List ℚ) (k : ℚ × ℚ),
      k ∈ (List.zipWith (fun x z => (x, y, z)) xs zr).map
        (fun r => (r.1, r.2.1)) → k.2 = y
  | [], _, k, h => by simp at h
  | _ :: _, [], k, h => by simp at h
  | x :: xt, z :: zt, k, h => by
    simp only [List.zipWith_cons_cons, List.map_cons, List.mem_cons] at h
    rcases h with rfl | h
    · rfl
    · exact key_snd_of_mem_block y xt zt k h

theorem key_snd_of_mem_rowsOf (xs : List ℚ) :
    ∀ (ys : List ℚ) (Z : Mat) (k : ℚ × ℚ),
      k ∈ (rowsOf xs ys Z).map (fun r => (r.1, r.2.1)) → k.2 ∈ ys
  | [], Z, k, h => by simp [rowsOf] at h
  | _ :: _, [], k, h => by simp [rowsOf] at h
  | y :: yt, zr :: Zt, k, h => by
    simp only [rowsOf, List.zipWith_cons_cons, List.flatten_cons,
      List.map_append, List.mem_append] at h
    rcases h with h | h
    · exact List.mem_cons.mpr (Or.inl (key_snd_of_mem_block y xs zr k h))
    · have := key_snd_of_mem_rowsOf xs yt Zt k (by simpa [rowsOf] using h)
      exact List.mem_cons.mpr (Or.inr this)

theorem keys_nodup_rowsOf (xs : List ℚ) (hxs : xs.Pairwise (· < ·)) :
    ∀ (ys : List ℚ) (Z : Mat), ys.Pairwise (· < ·) → Z.length = ys.length →
      (∀ r ∈ Z, r.length = xs.length) →
      ((rowsOf xs ys Z).map (fun r => (r.1, r.2.1))).Nodup := by
  intro ys
  induction ys with
  | nil =>
    intro Z hZp hZ _
    obtain rfl := List.length_eq_zero.mp hZ
    simp [rowsOf]
  | cons y yt ih =>
    intro Z hZp hZ hrow
    cases Z with
    | nil => simp at hZ
    | cons zr Zt =>
      have hzr : zr.length = xs.length := hrow zr (List.mem_cons_self zr Zt)
      have hZt : Zt.length = yt.length := by simpa using hZ
      have hrowt : ∀ r ∈ Zt, r.length = xs.length :=
        fun r hr => hrow r (List.mem_cons_of_mem zr hr)
      rw [List.pairwise_cons] at hZp
      simp only [rowsOf, List.zipWith_cons_cons, List.flatten_cons,
        List.map_append]
      rw [List.nodup_append]
      refine ⟨?_, ?_, ?_⟩
      · rw [map_key_zip_mesh y xs zr hzr]
        exact List.Nodup.map (fun a b h => by simpa using h)
          (hxs.imp (fun h => ne_of_lt h))
      · have := ih Zt hZp.2 hZt hrowt
        simpa [rowsOf] using this
      · intro k hk1 hk2
        have h1 : k.2 = y := key_snd_of_mem_block y xs zr k hk1
        have h2 : k.2 ∈ yt :=
          key_snd_of_mem_rowsOf xs yt Zt k (by simpa [rowsOf] using hk2)
        rw [h1] at h2
        exact absurd (hZp.1 y h2) (lt_irrefl y)

theorem mem_zipWith_of_mem_zip {α β γ : Type} (f : α → β → γ) :
    ∀ (l1 : List α) (l2 : List β) (p : α × β),
      p ∈ l1.zip l2 → f p.1 p.2 ∈ List.zipWith f l1 l2
  | [], _, p, h => by simp at h
  | _ :: _, [], p, h => by simp at h
  | a :: t1, b :: t2, p, h => by
    simp only [List.zip_cons_cons, List.mem_cons] at h
    rcases h with rfl | h
    · simp [List.zipWith_cons_cons]
    · simp only [List.zipWith_cons_cons, List.mem_cons]
      exact Or.inr (mem_zipWith_of_mem_zip f t1 t2 p h)

theorem mem_rowsOf (xs ys : List ℚ) (Z : Mat) (y : ℚ) (zr : List ℚ)
    (hy : (y, zr) ∈ ys.zip Z) (x z : ℚ) (hx : (x, z) ∈ xs.zip zr) :
    (x, y, z) ∈ rowsOf xs ys Z := by
  unfold rowsOf
  rw [List.mem_flatten]
  exact ⟨List.zipWith (fun x z => (x, y, z)) xs zr,
    mem_zipWith_of_mem_zip
      (fun y zr => List.zipWith (fun x z => (x, y, z)) xs zr) ys Z (y, zr) hy,
    mem_zipWith_of_mem_zip (fun x z => (x, y, z)) xs zr (x, z) hx⟩

theorem zip_map_snd_mem {α β γ : Type} (f : β → γ) :
    ∀ (l1 : List α) (l2 : List β) (p : α × β),
      p ∈ l1.zip l2 → (p.1, f p.2) ∈ l1.zip (l2.map f)
  | [], _, p, h => by simp at h
  | _ :: _, [], p, h => by simp at h
  | a :: t1, b :: t2, p, h => by
    simp only [List.zip_cons_cons, List.mem_cons] at h
    rcases h with rfl | h
    · simp [List.zip_cons_cons]
    · simp only [List.map_cons, List.zip_cons_cons, List.mem_cons]
      exact Or.inr (zip_map_snd_mem f t1 t2 p h)

theorem map_eq_map_of_zip {α β γ : Type} :
    ∀ (l1 : List α) (l2 : List β) (f : α → γ) (g : β → γ),
      l1.length = l2.length → (∀ p ∈ l1.zip l2, f p.1 = g p.2) →
      l1.map f = l2.map g
  | [], [], _, _, _, _ => rfl
  | [], _ :: _, f, g, h, _ => by simp at h
  | _ :: _, [], f, g, h, _ => by simp at h
  | a :: t1, b :: t2, f, g, h, hp => by
    simp only [List.map_cons]
    rw [hp (a, b) (by simp [List.zip_cons_cons]),
      map_eq_map_of_zip t1 t2 f g (by simpa using h)
        (fun p hmem => hp p (by simp [List.zip_cons_cons, hmem]))]

theorem length_flatten_const {α : Type} (n : ℕ) :
    ∀ (M : List (List α)), (∀ r ∈ M, r.length = n) →
      M.flatten.length = M.length * n
  | [], _ => by simp
  | r :: M, h => by
    simp only [List.flatten_cons, List.length_append, List.length_cons]
    rw [h r (List.mem_cons_self r M),
      length_flatten_const n M (fun s hs => h s (List.mem_cons_of_mem r hs))]
    ring

theorem matClose_round (N : ℕ) (M : Mat) :
    List.Forall₂ (List.Forall₂ (fun a b => |a - b| ≤ 1 / 10 ^ N))
      (M.map (fun r => r.map (roundDec N))) M := by
  rw [List.forall₂_map_left_iff]
  refine List.forall₂_same.mpr ?_
  intro r _
  rw [List.forall₂_map_left_iff]
  refine List.forall₂_same.mpr ?_
  intro a _
  exact roundDec_dist N a

theorem optClose_round (N : ℕ) (M : Mat) :
    List.Forall₂ (List.Forall₂
      (fun oz z => ∃ w, oz = some w ∧ |w - z| ≤ 1 / 10 ^ N))
      (M.map (fun r => r.map (fun z => some (roundDec N z)))) M := by
  rw [List.forall₂_map_left_iff]
  refine List.forall₂_same.mpr ?_
  intro r _
  rw [List.forall₂_map_left_iff]
  refine List.forall₂_same.mpr ?_
  intro a _
  exact ⟨roundDec N a, rfl, roundDec_dist N a⟩

/-- C5 (amended): writing a 2D reduced dataset, reading it back rounded to N
decimals and pivoting reconstructs the coordinate matrices and the value
matrix to within 10^-N, provided the dataset is a rectangular meshgrid over
coordinate vectors that are nonempty and strictly increasing after rounding
(the pivot orders the reconstructed grid by sorted distinct coordinates, so
an unsorted or duplicated-coordinate dataset is not reproduced). -/
theorem csv_roundtrip_amended (N : ℕ) (xs ys : List ℚ) (Z : Mat)
    (hxsp' : (xs.map (roundDec N)).Pairwise (· < ·))
    (hysp' : (ys.map (roundDec N)).Pairwise (· < ·))
    (hxne : xs ≠ []) (hyne : ys ≠ [])
    (hZlen : Z.length = ys.length) (hZrow : ∀ r ∈ Z, r.length = xs.length) :
    write_read_pivot N (meshgrid2 xs ys).1 (meshgrid2 xs ys).2 Z =
      some ((meshgrid2 xs ys).1.map (fun r => r.map (roundDec N)),
        (meshgrid2 xs ys).2.map (fun r => r.map (roundDec N)),
        Z.map (fun r => r.map (fun z => some (roundDec N z)))) ∧
    List.Forall₂ (List.Forall₂ (fun a b => |a - b| ≤ 1 / 10 ^ N))
      ((meshgrid2 xs ys).1.map (fun r => r.map (roundDec N)))
      (meshgrid2 xs ys).1 ∧
    List.Forall₂ (List.Forall₂ (fun a b => |a - b| ≤ 1 / 10 ^ N))
      ((meshgrid2 xs ys).2.map (fun r => r.map (roundDec N)))
      (meshgrid2 xs ys).2 ∧
    List.Forall₂ (List.Forall₂
      (fun oz z => ∃ w, oz = some w ∧ |w - z| ≤ 1 / 10 ^ N))
      (Z.map (fun r => r.map (fun z => some (roundDec N z)))) Z := by
  refine ⟨?_, matClose_round N _, matClose_round N _, optClose_round N Z⟩
  have hlen1 : (ravel (meshgrid2 xs ys).1).length = (ravel Z).length := by
    unfold ravel meshgrid2
    rw [length_flatten_const xs.length _
        (by intro r hr; obtain ⟨_, _, rfl⟩ := List.mem_map.mp hr; rfl),
      length_flatten_const xs.length Z hZrow, List.length_map, hZlen]
  have hlen2 : (ravel (meshgrid2 xs ys).2).length = (ravel Z).length := by
    unfold ravel meshgrid2
    rw [length_flatten_const xs.length _
        (by intro r hr; obtain ⟨_, _, rfl⟩ := List.mem_map.mp hr;
            exact List.length_map _ _),
      length_flatten_const xs.length Z hZrow, List.length_map, hZlen]
  unfold write_read_pivot write_csv
  rw [if_pos ⟨hlen1, hlen2⟩, Option.some_bind,
    ravel_mesh_rows xs ys Z hZlen hZrow]
  have hZ'len : (Z.map (fun r => r.map (roundDec N))).length =
      (ys.map (roundDec N)).length := by simp [hZlen]
  have hZ'row : ∀ r ∈ Z.map (fun r => r.map (roundDec N)),
      r.length = (xs.map (roundDec N)).length := by
    intro r hr
    obtain ⟨r0, hr0, rfl⟩ := List.mem_map.mp hr
    simp [hZrow r0 hr0]
  have hperm : List.Perm (read_csv N ((rowsOf xs ys Z).mergeSort rowLe))
      (rowsOf (xs.map (roundDec N)) (ys.map (roundDec N))
        (Z.map (fun r => r.map (roundDec N)))) := by
    have p1 : List.Perm (read_csv N ((rowsOf xs ys Z).mergeSort rowLe))
        (((rowsOf xs ys Z).mergeSort rowLe).map
          (fun r => (roundDec N r.1, roundDec N r.2.1, roundDec N r.2.2))) := by
      unfold read_csv
      exact List.mergeSort_perm _ _
    have p2 := (List.mergeSort_perm (rowsOf xs ys Z) rowLe).map
      (fun r => (roundDec N r.1, roundDec N r.2.1, roundDec N r.2.2))
    have p3 : List.Perm ((rowsOf xs ys Z).map
        (fun r => (roundDec N r.1, roundDec N r.2.1, roundDec N r.2.2)))
        (rowsOf (xs.map (roundDec N)) (ys.map (roundDec N))
          (Z.map (fun r => r.map (roundDec N)))) := by
      rw [map_round_rowsOf (roundDec N) xs ys Z]
    exact (p1.trans p2).trans p3
  have hkeys' : ((rowsOf (xs.map (roundDec N)) (ys.map (roundDec N))
      (Z.map (fun r => r.map (roundDec N)))).map
        (fun r => (r.1, r.2.1))).Nodup :=
    keys_nodup_rowsOf (xs.map (roundDec N)) hxsp' (ys.map (roundDec N))
      (Z.map (fun r => r.map (roundDec N))) hysp' hZ'len hZ'row
  have hkeys2 : ((read_csv N ((rowsOf xs ys Z).mergeSort rowLe)).map
      (fun r => (r.1, r.2.1))).Nodup := by
    rw [List.Perm.nodup_iff (List.Perm.map _ hperm)]
    exact hkeys'
  unfold df2grid
  rw [if_pos hkeys2]
  have hysne' : ys.map (roundDec N) ≠ [] :=
    fun h => hyne (List.map_eq_nil_iff.mp h)
  have hxsne' : xs.map (roundDec N) ≠ [] :=
    fun h => hxne (List.map_eq_nil_iff.mp h)
  have hxcol : uniqueSorted ((read_csv N
      ((rowsOf xs ys Z).mergeSort rowLe)).map (fun r => r.1)) =
      xs.map (roundDec N) := by
    apply uniqueSorted_eq_of_mem_iff _ _ hxsp'
    intro a
    rw [List.Perm.mem_iff (List.Perm.map _ hperm),
      mem_fst_rowsOf (xs.map (roundDec N)) (ys.map (roundDec N))
        (Z.map (fun r => r.map (roundDec N))) hZ'len hZ'row a]
    simp [hysne']
  have hycol : uniqueSorted ((read_csv N
      ((rowsOf xs ys Z).mergeSort rowLe)).map (fun r => r.2.1)) =
      ys.map (roundDec N) := by
    apply uniqueSorted_eq_of_mem_iff _ _ hysp'
    intro a
    rw [List.Perm.mem_iff (List.Perm.map _ hperm),
      mem_snd_rowsOf (xs.map (roundDec N)) hxsne' (ys.map (roundDec N))
        (Z.map (fun r => r.map (roundDec N))) hZ'len hZ'row a]
  rw [hxcol, hycol]
  have hc1 : (meshgrid2 (xs.map (roundDec N)) (ys.map (roundDec N))).1 =
      (meshgrid2 xs ys).1.map (fun r => r.map (roundDec N)) := by
    show (ys.map (roundDec N)).map (fun _ => xs.map (roundDec N)) =
      (ys.map (fun _ => xs)).map (fun r => r.map (roundDec N))
    rw [List.map_map, List.map_map]
    exact List.map_congr_left (fun y _ => rfl)
  have hc2 : (meshgrid2 (xs.map (roundDec N)) (ys.map (roundDec N))).2 =
      (meshgrid2 xs ys).2.map (fun r => r.map (roundDec N)) := by
    show (ys.map (roundDec N)).map
        (fun y => (xs.map (roundDec N)).map (fun _ => y)) =
      (ys.map (fun y => xs.map (fun _ => y))).map
        (fun r => r.map (roundDec N))
    rw [List.map_map, List.map_map]
    apply List.map_congr_left
    intro y _
    simp only [Function.comp_apply]
    rw [List.map_map, List.map_map]
    exact List.map_congr_left (fun x _ => rfl)
  have hc3 : (ys.map (roundDec N)).map (fun y =>
      (xs.map (roundDec N)).map (fun x =>
        lookupXY (read_csv N ((rowsOf xs ys Z).mergeSort rowLe)) x y)) =
      Z.map (fun r => r.map (fun z => some (roundDec N z))) := by
    apply map_eq_map_of_zip _ _ _ _ (by simp [hZlen])
    intro p hp
    have hzr_mem : p.2 ∈ Z := (List.of_mem_zip hp).2
    have hzr_len : p.2.length = xs.length := hZrow p.2 hzr_mem
    apply map_eq_map_of_zip _ _ _ _ (by simp [hzr_len])
    intro q hq
    have hrow_mem : (q.1, p.1, roundDec N q.2) ∈
        rowsOf (xs.map (roundDec N)) (ys.map (roundDec N))
          (Z.map (fun r => r.map (roundDec N))) := by
      apply mem_rowsOf _ _ _ p.1 (p.2.map (roundDec N))
      · exact zip_map_snd_mem (fun r => r.map (roundDec N))
          (ys.map (roundDec N)) Z p hp
      · exact zip_map_snd_mem (roundDec N) (xs.map (roundDec N)) p.2 q hq
    have hrow2 : (q.1, p.1, roundDec N q.2) ∈
        read_csv N ((rowsOf xs ys Z).mergeSort rowLe) :=
      (List.Perm.mem_iff hperm).mpr hrow_mem
    simpa using lookupXY_of_mem _ hkeys2 _ hrow2
  rw [hc1, hc2, hc3]

theorem rat_beq_eq (a b : ℚ) : (a == b) = decide (a = b) := rfl

/-- C5 counterexample: the dataset X = [[2, 1]], Y = [[0, 0]],
Z = [[5, 7]] (x coordinates out of order) is written, read back with 7
decimals and pivoted into X = [[1, 2]] with values [[7, 5]]: the
reconstructed first coordinate 1 differs from the original 2 by a full unit,
far beyond 10^-7, so the round-trip claim fails for datasets whose
coordinate matrices are not sorted meshgrids. -/
theorem csv_roundtrip_counterexample :
    write_read_pivot 7 [[2, 1]] [[0, 0]] [[5, 7]] =
      some ([[1, 2]], [[0, 0]], [[some 7, some 5]]) ∧
    ¬ (|(1 : ℚ) - 2| ≤ 1 / 10 ^ 7) ∧
    ¬ List.Forall₂ (List.Forall₂ (fun a b : ℚ => |a - b| ≤ 1 / 10 ^ 7))
      [[1, 2]] [[2, 1]] := by
  refine ⟨?_, ?_, ?_⟩
  · norm_num [write_read_pivot, write_csv, read_csv, df2grid, ravel,
      meshgrid2, uniqueSorted, sortedInsert, lookupXY, roundDec,
      roundHalfEven, rowLe, rat_beq_eq, List.mergeSort, List.merge,
      List.find?, List.replicate_succ]
  · norm_num
  · intro h
    simp only [List.forall₂_cons] at h
    have h2 := h.1.1
    norm_num at h2

/-- Witness for C5: a 2x2 meshgrid dataset over x = y = [0, 1] with values
[[1, 2], [3, 4]] and 1 decimal. -/
theorem csv_roundtrip_witness :
    write_read_pivot 1 (meshgrid2 [0, 1] [0, 1]).1 (meshgrid2 [0, 1] [0, 1]).2
        [[1, 2], [3, 4]] =
      some ((meshgrid2 [0, 1] [0, 1]).1.map (fun r => r.map (roundDec 1)),
        (meshgrid2 [0, 1] [0, 1]).2.map (fun r => r.map (roundDec 1)),
        ([[1, 2], [3, 4]] : Mat).map
          (fun r => r.map (fun z => some (roundDec 1 z)))) ∧
    List.Forall₂ (List.Forall₂ (fun a b => |a - b| ≤ 1 / 10 ^ 1))
      ((meshgrid2 [0, 1] [0, 1]).1.map (fun r => r.map (roundDec 1)))
      (meshgrid2 [0, 1] [0, 1]).1 ∧
    List.Forall₂ (List.Forall₂ (fun a b => |a - b| ≤ 1 / 10 ^ 1))
      ((meshgrid2 [0, 1] [0, 1]).2.map (fun r => r.map (roundDec 1)))
      (meshgrid2 [0, 1] [0, 1]).2 ∧
    List.Forall₂ (List.Forall₂
      (fun oz z => ∃ w, oz = some w ∧ |w - z| ≤ 1 / 10 ^ 1))
      (([[1, 2], [3, 4]] : Mat).map
        (fun r => r.map (fun z => some (roundDec 1 z))))
      ([[1, 2], [3, 4]] : Mat) :=
  csv_roundtrip_amended 1 [0, 1] [0, 1] [[1, 2], [3, 4]]
    (by norm_num [roundDec, roundHalfEven])
    (by norm_num [roundDec, roundHalfEven])
    (by simp) (by simp) rfl (by decide)
